import Mathlib

/-!
# dbx: query-spec compilation and the cache/store protocol

A shallow embedding of `dbx.go`.  Go strings are Lean strings, Go slices are lists, Go maps
are association lists read with `List.lookup`, `interface{}` arguments are values of `Any`,
and the pointer receivers `*Query` / `*DB` become explicit state passing.  The `int64`
offsets and counts are integers: the code only stores and prints them.  A Go `panic` is the
`panic` constructor of `Res` and of `Step`; what the deferred `dbxErrorDefer` makes of it at
the boundary of an operation is the function `dbxErrorDefer`.  The store is an external
collaborator: an operation records every call it makes on it, and the answers are those of a
`Store`.  Logging (`Log`, `LogSQL`, `ErrorLog`, `ErrorSQL`) has no effect on any value and is
left out.
-/

namespace Dbx

/-! ## Values and text -/

/-- A Go value held in an `interface{}` and bound to a statement as a positional argument. -/
inductive Any where
  | null
  | bool (b : Bool)
  | int (i : Int)
  | int64 (i : Int)
  | str (s : String)
  deriving DecidableEq

/-- Decimal rendering of an integer, as `%v` prints it. -/
def fmtInt (i : Int) : String :=
  if i < 0 then "-" ++ Nat.repr i.natAbs else Nat.repr i.natAbs

/-- The text `fmt.Sprintf("%v", v)` yields for a value. -/
def Sprint : Any → String
  | .null => "<nil>"
  | .bool b => if b then "true" else "false"
  | .int i => fmtInt i
  | .int64 i => fmtInt i
  | .str s => s

/-- Go `strings.TrimRight(s, cutset)`: every trailing character that occurs in `cutset` is
removed. -/
def TrimRight (s cutset : String) : String :=
  ⟨(s.data.reverse.dropWhile (fun c => cutset.data.contains c)).reverse⟩

/-- Go `strings.Join(elems, sep)`. -/
def Join (elems : List String) (sep : String) : String :=
  sep.intercalate elems

/-- Go `strings.Repeat(s, n)`. -/
def Repeat (s : String) (n : Nat) : String :=
  String.join (List.replicate n s)

/-- Go `strings.ToUpper` on ASCII text. -/
def ToUpper (s : String) : String :=
  ⟨s.data.map Char.toUpper⟩

/-- The outcome of a Go `panic`: a tagged library error (`*dbxError`) or any other value. -/
inductive Panic where
  | dbx (msg : String)
  | runtime (msg : String)
  deriving DecidableEq

/-- A computation that either yields a value or panics. -/
inductive Res (α : Type) where
  | ok (a : α)
  | panic (p : Panic)
  deriving DecidableEq

/-- Sequencing of computations that may panic. -/
def Res.bind {α β : Type} (x : Res α) (f : α → Res β) : Res β :=
  match x with
  | .ok a => f a
  | .panic p => .panic p

/-- The image of a result under a function. -/
def Res.map {α β : Type} (f : α → β) (x : Res α) : Res β :=
  match x with
  | .ok a => .ok (f a)
  | .panic p => .panic p

/-- The panic of dereferencing a nil pointer. -/
def nilDeref : Panic :=
  .runtime "invalid memory address or nil pointer dereference"

/-! ## Constants -/

/-- The ten action kinds of the compiler (`ACTION_*`, an `iota` block). -/
inductive Action where
  | ACTION_SELECT_ONE
  | ACTION_SELECT_ALL
  | ACTION_UPDATE
  | ACTION_UPDATE_M
  | ACTION_DELETE
  | ACTION_INSERT
  | ACTION_INSERT_IGNORE
  | ACTION_REPLACE
  | ACTION_COUNT
  | ACTION_SUM
  deriving DecidableEq

open Action

/-- The MySQL dialect. -/
def DRIVER_MYSQL : Nat := 0

/-- The SQLite dialect. -/
def DRIVER_SQLITE : Nat := 1

/-- The separator of the composite primary-key string. -/
def KEY_SEP : String := "-"

/-- An error value returned by an operation: the no-rows sentinel or any other error. -/
inductive Err where
  | ErrNoRows
  | other (msg : String)
  deriving DecidableEq

/-! ## Data model -/

/-- One key/value pair of an `M`. -/
structure Map where
  Key : String
  Value : Any
  deriving DecidableEq

/-- An ordered key/value list. -/
abbrev M := List Map

/-- The keys and the values of an `M`, in order. -/
def M.toKeysValues (m : M) : List String × List Any :=
  (m.map (fun v => v.Key), m.map (fun v => v.Value))

/-- A field descriptor (the `reflect.StructField` it carries is left out). -/
structure Col where
  ColName : String
  FieldName : String
  FieldPos : List Int
  deriving DecidableEq

/-- The column/field mapping of a schema. -/
structure ColFieldMap where
  fieldMap : List (String × Nat)
  fieldArr : List String
  colMap : List (String × Nat)
  colArr : List String
  cols : List Col
  deriving DecidableEq

/-- A `reflect.Type`, as far as the code inspects it. -/
inductive RType where
  | struct (name : String)
  | ptr (elem : RType)
  | slice (elem : RType)
  | other (kind : String)
  deriving DecidableEq

/-- The schema of a table (`Type_` is the field `Type`). -/
structure TableStruct where
  ColFieldMap : ColFieldMap
  PrimaryKey : List String
  PrimaryKeyPos : List (List Int)
  AutoIncrement : String
  Type_ : RType
  EnableCache : Bool
  deriving DecidableEq

/-- A record: a value of a Go struct type, with its fields by name. -/
structure Record where
  typ : String
  fields : List (String × Any)
  deriving DecidableEq

/-- A per-table cache (`syncmap.Map`): composite key string to record. -/
abbrev Cache := List (String × Record)

/-- The entry stored under a key, if any (`Load`). -/
def Cache.Load (mp : Cache) (key : String) : Option Record :=
  mp.lookup key

/-- The cache with the entry under a key set to a record (`Store`). -/
def Cache.Store (mp : Cache) (key : String) (r : Record) : Cache :=
  if mp.any (fun e => e.1 == key) then
    mp.map (fun e => if e.1 == key then (key, r) else e)
  else mp ++ [(key, r)]

/-- The cache without the entry under a key (`Delete`). -/
def Cache.Delete (mp : Cache) (key : String) : Cache :=
  mp.filter (fun e => !(e.1 == key))

/-- The number of entries (`Len`). -/
def Cache.Len (mp : Cache) : Int :=
  mp.length

/-- The handle state: dialect, schema registry, per-table caches and the two flags (the
embedded `*sql.DB` is the `Store` below; the two log writers are left out). -/
structure DB where
  DriverType : Nat
  tableStruct : List (String × TableStruct)
  tableData : List (String × Cache)
  tableEnableCache : Bool
  readOnly : Bool
  deriving DecidableEq

/-- The Go map assignment `m[k] = v`. -/
def mapSet {β : Type} (m : List (String × β)) (k : String) (v : β) : List (String × β) :=
  if m.any (fun e => e.1 == k) then
    m.map (fun e => if e.1 == k then (k, v) else e)
  else m ++ [(k, v)]

/-- A query spec (`where_` is the field `where`; the embedded `*DB` is passed alongside). -/
structure Query where
  table : String
  fields : List String
  primaryKeyStr : String
  primaryArgs : List Any
  where_ : String
  whereArgs : List Any
  whereM : M
  orderBy : M
  limitStart : Int
  limitEnd : Int
  updateFields : List String
  updateArgs : List Any
  deriving DecidableEq

/-! ## Query spec builder -/

/-- `db.Table(name)`: a fresh spec on a table. -/
def Table (name : String) : Query :=
  { table := name, fields := [], primaryKeyStr := "", primaryArgs := [], where_ := "",
    whereArgs := [], whereM := [], orderBy := [], limitStart := 0, limitEnd := 0,
    updateFields := [], updateArgs := [] }

/-- `q.Fields(fields...)`. -/
def Query.Fields (q : Query) (fields : List String) : Query :=
  { q with fields := fields }

/-- `q.Where(str, args...)`. -/
def Query.Where (q : Query) (str : String) (args : List Any) : Query :=
  { q with
    where_ := if q.where_ = "" then str else q.where_ ++ " AND " ++ str
    whereArgs := q.whereArgs ++ args }

/-- `q.And(str, args...)`. -/
def Query.And (q : Query) (str : String) (args : List Any) : Query :=
  q.Where str args

/-- `q.Or(str, args...)`. -/
def Query.Or (q : Query) (str : String) (args : List Any) : Query :=
  { q with
    where_ := if q.where_ = "" then str else q.where_ ++ " OR " ++ str
    whereArgs := q.whereArgs ++ args }

/-- `q.WhereM(m)`. -/
def Query.WhereM (q : Query) (m : M) : Query :=
  { q with whereM := q.whereM ++ m }

/-- The loop of `WherePK`: every value printed with `%v` and followed by the separator. -/
def pkConcat (args : List Any) : String :=
  args.foldl (fun str v => str ++ (Sprint v ++ KEY_SEP)) ""

/-- `q.WherePK(args...)`. -/
def Query.WherePK (q : Query) (args : List Any) : Query :=
  { q with primaryArgs := args, primaryKeyStr := TrimRight (pkConcat args) KEY_SEP }

/-- `q.Sort(colName, order)`. -/
def Query.Sort (q : Query) (colName : String) (order : Int) : Query :=
  { q with orderBy := q.orderBy ++ [⟨colName, .int order⟩] }

/-- `q.SortM(m)`. -/
def Query.SortM (q : Query) (m : M) : Query :=
  { q with orderBy := q.orderBy ++ m.map (fun v => ⟨v.Key, v.Value⟩) }

/-- `q.Limit(limitStart, limitEnds...)`. -/
def Query.Limit (q : Query) (limitStart : Int) (limitEnds : List Int) : Query :=
  { q with limitStart := limitStart, limitEnd := limitEnds.headD 0 }

/-! ## The store collaborator and the absent helpers -/

/-- A call made on the store (`*sql.DB`). -/
inductive StoreCall where
  | Prepare (sql1 : String)
  | Query (sql1 : String) (args : List Any)
  | QueryRow (sql1 : String) (args : List Any)
  | Exec (sql1 : String) (args : List Any)
  deriving DecidableEq

/-- A row cursor as the store hands it back: the column names (or the error of `Columns`),
the rows, the error of `Scan` and the error of `Err`, if any. -/
structure Rows where
  columns : List String
  columnsErr : Option Err
  rows : List (List Any)
  scanErr : Option Err
  err : Option Err

/-- A `sql.Result`: what `LastInsertId` and `RowsAffected` return. -/
structure Result where
  LastInsertId : Int × Option Err
  RowsAffected : Int × Option Err

/-- The store collaborator.  It is external and stateful: each answer is a function of the
calls made so far and of the present call.  `QueryRowInt64` is `QueryRow(..).Scan(&n)` with
`n` an `int64` (the value left in `n`, and the error); `QueryRowNullInt64` is the same scan
into a `sql.NullInt64` (its `Int64` field after the scan, and the error). -/
structure Store where
  Prepare : List StoreCall → String → Option Err
  Query : List StoreCall → String → List Any → Except Err Rows
  Exec : List StoreCall → String → List Any → Except Err Result
  QueryRowInt64 : List StoreCall → String → List Any → Int × Option Err
  QueryRowNullInt64 : List StoreCall → String → List Any → Int × Option Err

/-- The functions of the package that `dbx.go` calls and that live in its other files, taken
as parameters: the reflection walk over a record type, the metadata query for a table, the
extraction of a record's column values (`struct_value_to_args`, with its two flags; its third
result is never read), the composite key of a record, the write of a store value into the
field at a position (`get_reflect_value_from_pos` followed by `set_value_to_ifc`), and the
decoding of a row cursor into records appended to a list. -/
structure Helpers where
  struct_fields_range_do : ColFieldMap → RType → List Int → Res ColFieldMap
  get_table_info : Store → List StoreCall → DB → String →
    Res (List StoreCall × List String × String)
  struct_value_to_args : TableStruct → Record → Bool → Bool → Res (List Any × List Any)
  get_pk_key : TableStruct → Record → Res String
  set_value_to_ifc : Record → List Int → Any → Res Record
  rows_to_arr_list : List Record → Rows → TableStruct → Bool → Res (List Record × Option Err)

/-- Modelled from the spec: `arr_to_sql_add` is defined in another file of the package; the
compiler uses it to render a column list, each column followed by `add` (for instance
`=?`), the terms joined by `sep`. -/
def arr_to_sql_add (arr : List String) (add sep : String) : String :=
  Join (arr.map (fun v => v ++ add)) sep

/-- Modelled from the spec: `array_sub` is defined in another file of the package; it yields
the declared columns minus the excluded ones, in order. -/
def array_sub (arr excludes : List String) : List String :=
  arr.filter (fun v => !(excludes.contains v))

/-- Modelled from the spec: `in_array` is defined in another file of the package; it tells
whether a column is among the given ones. -/
def in_array (v : String) (arr : List String) : Bool :=
  arr.contains v

/-! ## SQL compiler -/

/-- `q.whereToSQLDo()`: the generic filter and the filter-map, merged. -/
def Query.whereToSQLDo (q : Query) : String × List Any :=
  let where_ := q.where_
  let args := q.whereArgs
  let (where_, args) :=
    if q.whereM.length > 0 then
      let (colNames, args2) := M.toKeysValues q.whereM
      let whereAdd := arr_to_sql_add colNames "=?" " AND "
      (if where_ = "" then whereAdd else where_ ++ " AND " ++ whereAdd, args ++ args2)
    else (where_, args)
  (if where_ ≠ "" then " WHERE " ++ where_ else where_, args)

/-- `q.whereToSQL(tableStruct)`; the schema may be nil, and is dereferenced only when the spec
holds primary-key values. -/
def Query.whereToSQL (q : Query) (tableStruct : Option TableStruct) : Res (String × List Any) :=
  if q.primaryArgs.length > 0 then
    match tableStruct with
    | none => .panic nilDeref
    | some ts => .ok (" WHERE " ++ arr_to_sql_add ts.PrimaryKey "=?" " AND ", q.primaryArgs)
  else .ok q.whereToSQLDo

/-- The loop of `orderByToSQL`: one term per sort pair. -/
def orderByTerm (m : Map) : String :=
  match m.Value with
  | .int v =>
    if v = 1 then m.Key ++ " " ++ "ASC" ++ " AND"
    else if v = -1 then m.Key ++ " " ++ "DESC" ++ " AND"
    else ""
  | _ => m.Key ++ " " ++ "ASC" ++ " AND"

/-- `q.orderByToSQL()`. -/
def Query.orderByToSQL (q : Query) : String :=
  TrimRight (q.orderBy.foldl (fun sqlAdd m => sqlAdd ++ orderByTerm m) "") " AND"

/-- The limit clause `toSQL` derives from the spec before it looks at the action. -/
def Query.limitSQL (q : Query) : String :=
  if q.limitStart ≠ 0 ∨ q.limitEnd ≠ 0 then
    if q.limitEnd = 0 then " LIMIT " ++ fmtInt q.limitStart
    else " LIMIT " ++ fmtInt q.limitStart ++ "," ++ fmtInt q.limitEnd
  else ""

/-- The column list and placeholder list of an insert statement. -/
def insertLists (colNames : List String) : String × String :=
  (arr_to_sql_add colNames "" ",", TrimRight (Repeat "?," colNames.length) ",")

/-- `q.toSQL(tableStruct, action, rvalues...)`: statement text and positional args. -/
def Query.toSQL (h : Helpers) (db : DB) (q : Query) (tableStruct : Option TableStruct)
    (action : Action) (rvalues : List Record) : Res (String × List Any) :=
  let fields := if q.fields.length > 0 then Join q.fields "," else "*"
  (q.whereToSQL tableStruct).bind fun (where_, args) =>
  let orderBy := if q.orderBy.length > 0 then " ORDER BY " ++ q.orderByToSQL else ""
  let limit := q.limitSQL
  match action with
  | ACTION_SELECT_ONE =>
    let limit := " LIMIT 1"
    .ok ("SELECT " ++ fields ++ " FROM " ++ q.table ++ where_ ++ orderBy ++ limit, args)
  | ACTION_SELECT_ALL =>
    .ok ("SELECT " ++ fields ++ " FROM " ++ q.table ++ where_ ++ orderBy ++ limit, args)
  | ACTION_UPDATE =>
    let limit := if db.DriverType = DRIVER_MYSQL then " LIMIT 1" else limit
    match rvalues, tableStruct with
    | [], _ => .panic (.runtime "index out of range")
    | _ :: _, none => .panic nilDeref
    | rv :: _, some ts =>
      (h.struct_value_to_args ts rv true true).bind fun (updateArgs, pkArgs) =>
      let colNames := array_sub ts.ColFieldMap.colArr ts.PrimaryKey
      let updateFields := arr_to_sql_add colNames "=?" ","
      let (where_, args) :=
        if where_ = "" then
          (" WHERE " ++ arr_to_sql_add ts.PrimaryKey "=?" " AND ", args ++ pkArgs)
        else (where_, args)
      .ok ("UPDATE " ++ q.table ++ " SET " ++ updateFields ++ where_ ++ limit,
        updateArgs ++ args)
  | ACTION_UPDATE_M =>
    let limit := if db.DriverType = DRIVER_SQLITE then "" else limit
    let colNames := arr_to_sql_add q.updateFields "=?" ","
    .ok ("UPDATE " ++ q.table ++ " SET " ++ colNames ++ where_ ++ limit, q.updateArgs ++ args)
  | ACTION_DELETE =>
    let limit := if db.DriverType = DRIVER_SQLITE then "" else limit
    .ok ("DELETE FROM " ++ q.table ++ where_ ++ limit, args)
  | ACTION_INSERT =>
    match tableStruct, rvalues with
    | none, _ => .panic nilDeref
    | some _, [] => .panic (.runtime "index out of range")
    | some ts, rv :: _ =>
      let (fields, values) := insertLists (array_sub ts.ColFieldMap.colArr [ts.AutoIncrement])
      (h.struct_value_to_args ts rv true false).bind fun (args, _) =>
      .ok ("INSERT INTO " ++ q.table ++ " (" ++ fields ++ ") VALUES (" ++ values ++ ")", args)
  | ACTION_INSERT_IGNORE =>
    match tableStruct, rvalues with
    | none, _ => .panic nilDeref
    | some _, [] => .panic (.runtime "index out of range")
    | some ts, rv :: _ =>
      let (fields, values) := insertLists (array_sub ts.ColFieldMap.colArr [ts.AutoIncrement])
      let sql1 :=
        if db.DriverType = DRIVER_MYSQL then
          "INSERT IGNORE INTO " ++ q.table ++ " (" ++ fields ++ ") VALUES (" ++ values ++ ")"
        else if db.DriverType = DRIVER_SQLITE then
          "INSERT OR IGNORE INTO " ++ q.table ++ " (" ++ fields ++ ") VALUES (" ++ values ++ ")"
        else ""
      (h.struct_value_to_args ts rv true false).bind fun (args, _) => .ok (sql1, args)
  | ACTION_REPLACE =>
    match db.tableStruct.lookup q.table, rvalues with
    | none, _ => .panic nilDeref
    | some _, [] => .panic (.runtime "index out of range")
    | some ts, rv :: _ =>
      let (fields, values) := insertLists ts.ColFieldMap.colArr
      (h.struct_value_to_args ts rv false false).bind fun (args, _) =>
      .ok ("REPLACE INTO " ++ q.table ++ " (" ++ fields ++ ") VALUES (" ++ values ++ ")", args)
  | ACTION_COUNT =>
    .ok ("SELECT COUNT(*) FROM " ++ fields ++ q.table ++ "%!(EXTRA string=" ++ where_ ++ ")",
      args)
  | ACTION_SUM => .ok ("", args)

/-! ## Operations: state, panics and the operation boundary -/

/-- What an operation can change besides its own results: the handle state and the list of
calls made on the store so far. -/
structure World where
  db : DB
  sent : List StoreCall
  deriving DecidableEq

/-- The world after one more call on the store. -/
def World.send (s : World) (c : StoreCall) : World :=
  { s with sent := s.sent ++ [c] }

/-- A step inside an operation: it yields a value, panics, or ends the process. -/
inductive Step (α : Type) where
  | ok (s : World) (a : α)
  | panic (s : World) (p : Panic)
  | exit (s : World)

/-- How an operation ends: it returns its results, or the process is terminated. -/
inductive Outcome (α : Type) where
  | returned (s : World) (a : α)
  | exited (s : World)
  deriving DecidableEq

/-- `dbxErrorDefer` at a panic: a tagged library error becomes the returned error (the other
named results keep the values they have, given by `withErr`); anything else ends the
process with `os.Exit(0)`. -/
def dbxErrorDefer {α : Type} (s : World) (p : Panic) (withErr : Err → α) : Outcome α :=
  match p with
  | .dbx msg => .returned s (withErr (.other ("dbx panic(): " ++ msg)))
  | .runtime _ => .exited s

/-- The value a caller passes as `interface{}` where a record is expected: a pointer to a
record, a record, a pointer to a value of a non-struct kind, or a value of a kind that is
neither pointer nor struct. -/
inductive Ifc where
  | ptr (r : Record)
  | val (r : Record)
  | ptrOther (kind : String)
  | other (kind : String)
  deriving DecidableEq

/-- `reflect.TypeOf(ifc)`. -/
def Ifc.TypeOf : Ifc → RType
  | .ptr r => .ptr (.struct r.typ)
  | .val r => .struct r.typ
  | .ptrOther kind => .ptr (.other kind)
  | .other kind => .other kind

/-- The value a caller passes where a list of records is expected: a pointer to a slice with
the given element type and content, a pointer to something else, or a non-pointer. -/
inductive ListIfc where
  | ptrSlice (elem : RType) (list : List Record)
  | ptrOther
  | other (kind : String)
  deriving DecidableEq

/-- `NewColFieldMap()`. -/
def NewColFieldMap : ColFieldMap :=
  { fieldMap := [], fieldArr := [], colMap := [], colArr := [], cols := [] }

/-- `c.Exists(key)`: whether a field name is registered. -/
def ColFieldMap.Exists (c : ColFieldMap) (key : String) : Bool :=
  (c.fieldMap.lookup key).isSome

/-- `c.Add(col)`: a descriptor is appended and indexed by its field name and, when it has
one, by its column name; nothing is done when its field name is registered already. -/
def ColFieldMap.Add (c : ColFieldMap) (col : Col) : ColFieldMap :=
  if c.Exists col.FieldName then c
  else
    let cols := c.cols ++ [col]
    let n := cols.length - 1
    let c1 : ColFieldMap :=
      { c with cols := cols, fieldMap := mapSet c.fieldMap col.FieldName n,
               fieldArr := c.fieldArr ++ [col.FieldName] }
    if col.ColName ≠ "" then
      { c1 with colMap := mapSet c1.colMap col.ColName n, colArr := c1.colArr ++ [col.ColName] }
    else c1

/-- `c.GetByColName(colName)`: the descriptor indexed under a column name, or nil; an index
past the descriptor list panics. -/
def ColFieldMap.GetByColName (c : ColFieldMap) (colName : String) : Res (Option Col) :=
  match c.colMap.lookup colName with
  | none => .ok none
  | some i =>
    match c.cols[i]? with
    | some col => .ok (some col)
    | none => .panic (.runtime "index out of range")

/-- `c.GetByFieldName(fieldName)`: the descriptor indexed under a field name, or nil; an index
past the descriptor list panics. -/
def ColFieldMap.GetByFieldName (c : ColFieldMap) (fieldName : String) : Res (Option Col) :=
  match c.fieldMap.lookup fieldName with
  | none => .ok none
  | some i =>
    match c.cols[i]? with
    | some col => .ok (some col)
    | none => .panic (.runtime "index out of range")

/-- A sequence of `Add` calls on a new `ColFieldMap`. -/
def addAll (adds : List Col) : ColFieldMap :=
  adds.foldl ColFieldMap.Add NewColFieldMap

/-- The loop of `NewTableStruct` that records the field path of every primary-key column; a
column absent from `colMap` reads index 0, and an index past `cols` panics. -/
def primaryKeyPos (colFieldMap : ColFieldMap) : List String → Option (List (List Int))
  | [] => some []
  | colName :: rest =>
    match colFieldMap.cols[(colFieldMap.colMap.lookup colName).getD 0]? with
    | none => none
    | some col => (primaryKeyPos colFieldMap rest).map (fun l => col.FieldPos :: l)

/-- `NewTableStruct(db, tableName, pointerType)`: the schema derived from a record type and
the table's metadata. -/
def NewTableStruct (h : Helpers) (st : Store) (s : World) (tableName : String)
    (pointerType : RType) : Step TableStruct :=
  let pointerType := match pointerType with
    | .ptr _ => pointerType
    | _ => .ptr pointerType
  match h.struct_fields_range_do NewColFieldMap pointerType [] with
  | .panic p => .panic s p
  | .ok colFieldMap =>
    match h.get_table_info st s.sent s.db tableName with
    | .panic p => .panic s p
    | .ok (calls, PrimaryKey, AutoIncrement) =>
      let s1 := { s with sent := s.sent ++ calls }
      match primaryKeyPos colFieldMap PrimaryKey with
      | none => .panic s1 (.runtime "index out of range")
      | some pos =>
        .ok s1 { ColFieldMap := colFieldMap, PrimaryKey := PrimaryKey, PrimaryKeyPos := pos,
                 AutoIncrement := AutoIncrement, Type_ := pointerType, EnableCache := false }

/-- `q.getTableStruct()` called without a type: the registered schema, or nil. -/
def Query.getTableStruct (s : World) (q : Query) : Option TableStruct :=
  s.db.tableStruct.lookup q.table

/-- `q.getTableStruct(arrType)` called with a type: the registered schema, or a schema
derived now and registered. -/
def Query.getTableStructFor (h : Helpers) (st : Store) (s : World) (q : Query)
    (arrType : RType) : Step TableStruct :=
  let arrType := match arrType with
    | .ptr _ => arrType
    | _ => .ptr arrType
  match s.db.tableStruct.lookup q.table with
  | some tableStruct => .ok s tableStruct
  | none =>
    match NewTableStruct h st s q.table arrType with
    | .ok s1 tableStruct =>
      .ok { s1 with db := { s1.db with
              tableStruct := mapSet s1.db.tableStruct q.table tableStruct } } tableStruct
    | .panic s1 p => .panic s1 p
    | .exit s1 => .exit s1

/-- `db.Exec(sql1, args...)`: the statement is executed, then its first six bytes decide
which number of the result is returned.  The six bytes spell one of the three verbs exactly
when the first six characters do. -/
def DB.Exec (st : Store) (s : World) (sql1 : String) (args : List Any) :
    Step (Int × Option Err) :=
  let s1 := s.send (.Exec sql1 args)
  match st.Exec s.sent sql1 args with
  | .error err => .ok s1 (0, some err)
  | .ok result =>
    if sql1.utf8ByteSize < 6 then .panic s1 (.runtime "slice bounds out of range")
    else
      let pfx := ToUpper ⟨sql1.data.take 6⟩
      if pfx = "INSERT" then .ok s1 result.LastInsertId
      else if pfx = "UPDATE" ∨ pfx = "DELETE" then .ok s1 result.RowsAffected
      else .ok s1 (0, none)

/-- The loop of `One` that maps every result column to the field path of its descriptor;
columns the schema does not know are skipped. -/
def posMapOf (tableStruct : TableStruct) : List String → Res (List (Option (List Int)))
  | [] => .ok []
  | colName :: rest =>
    match tableStruct.ColFieldMap.colMap.lookup colName with
    | none => (posMapOf tableStruct rest).map (fun l => none :: l)
    | some n =>
      match tableStruct.ColFieldMap.cols[n]? with
      | none => .panic (.runtime "index out of range")
      | some col => (posMapOf tableStruct rest).map (fun l => some col.FieldPos :: l)

/-- The loop of `One` that writes the scanned values into the destination; it stops at the
first panic, with the fields written so far. -/
def setValues (h : Helpers) : Record → List (Option (List Int)) → List Any →
    Record × Option Panic
  | dest, [], _ => (dest, none)
  | dest, none :: ps, vs => setValues h dest ps vs.tail
  | dest, some pos :: ps, vs =>
    match h.set_value_to_ifc dest pos (vs.headD .null) with
    | .ok dest1 => setValues h dest1 ps vs.tail
    | .panic p => (dest, some p)

/-- `q.One(arrIfc)`: read one record into the destination.  The result holds the caller's
value after the call, and the error.  On a cache hit the cached record is assigned to the
destination with `reflect`'s `Set`, which panics when the two are of different struct
types. -/
def Query.One (h : Helpers) (st : Store) (s : World) (q : Query) (arrIfc : Ifc) :
    Outcome (Ifc × Option Err) :=
  let mustPtr (kind : String) : Outcome (Ifc × Option Err) :=
    dbxErrorDefer s (.dbx ("must pass a struct pointer: " ++ kind)) (fun e => (arrIfc, some e))
  match arrIfc with
  | .val _ => mustPtr "struct"
  | .other kind => mustPtr kind
  | .ptrOther kind => mustPtr kind
  | .ptr dest =>
    match q.getTableStructFor h st s arrIfc.TypeOf with
    | .exit s1 => .exited s1
    | .panic s1 p => dbxErrorDefer s1 p (fun e => (arrIfc, some e))
    | .ok s1 tableStruct =>
      if s1.db.tableEnableCache && tableStruct.EnableCache && decide (q.primaryArgs.length > 0)
      then
        if q.primaryKeyStr.length ≠ 0 then
          match s1.db.tableData.lookup q.table with
          | none =>
            .returned s1 (arrIfc,
              some (.other ("q.tableData[q.table]: key " ++ q.table ++ " does not exists.")))
          | some mp =>
            match mp.Load q.primaryKeyStr with
            | some ifc =>
              if ifc.typ = dest.typ then .returned s1 (.ptr ifc, none)
              else dbxErrorDefer s1 (.runtime "reflect.Set: value is not assignable")
                (fun e => (arrIfc, some e))
            | none => .returned s1 (arrIfc, some .ErrNoRows)
        else .returned s1 (arrIfc, some .ErrNoRows)
      else
        match q.toSQL h s1.db (some tableStruct) ACTION_SELECT_ONE [] with
        | .panic p => dbxErrorDefer s1 p (fun e => (arrIfc, some e))
        | .ok (sql1, args) =>
          let s2 := s1.send (.Prepare sql1)
          match st.Prepare s1.sent sql1 with
          | some err => .returned s2 (arrIfc, some err)
          | none =>
            let s3 := s2.send (.Query sql1 args)
            match st.Query s2.sent sql1 args with
            | .error err => .returned s3 (arrIfc, some err)
            | .ok rows =>
              match rows.columnsErr with
              | some err => .returned s3 (arrIfc, some err)
              | none =>
                match posMapOf tableStruct rows.columns with
                | .panic p => dbxErrorDefer s3 p (fun e => (arrIfc, some e))
                | .ok posMap =>
                  match rows.rows with
                  | [] => .returned s3 (arrIfc, some .ErrNoRows)
                  | values :: _ =>
                    match rows.scanErr with
                    | some err => .returned s3 (arrIfc, some err)
                    | none =>
                      match setValues h dest posMap values with
                      | (dest1, some p) =>
                        dbxErrorDefer s3 p (fun e => (.ptr dest1, some e))
                      | (dest1, none) => .returned s3 (.ptr dest1, rows.err)

/-- `q.All(arrListIfc)`: read all matching records into the list.  The result holds the
caller's list after the call, and the error. -/
def Query.All (h : Helpers) (st : Store) (s : World) (q : Query) (arrListIfc : ListIfc) :
    Outcome (ListIfc × Option Err) :=
  match arrListIfc with
  | .other kind =>
    dbxErrorDefer s (.dbx ("must pass a slice pointer: " ++ kind))
      (fun e => (arrListIfc, some e))
  | .ptrOther =>
    dbxErrorDefer s (.dbx "must pass a slice pointer: ptr") (fun e => (arrListIfc, some e))
  | .ptrSlice arrType list =>
    let arrIsPtr := match arrType with
      | .ptr _ => true
      | _ => false
    match q.getTableStructFor h st s arrType with
    | .exit s1 => .exited s1
    | .panic s1 p => dbxErrorDefer s1 p (fun e => (arrListIfc, some e))
    | .ok s1 tableStruct =>
      match q.toSQL h s1.db (some tableStruct) ACTION_SELECT_ALL [] with
      | .panic p => dbxErrorDefer s1 p (fun e => (arrListIfc, some e))
      | .ok (sql1, args) =>
        let s2 := s1.send (.Prepare sql1)
        match st.Prepare s1.sent sql1 with
        | some err => .returned s2 (arrListIfc, some err)
        | none =>
          let s3 := s2.send (.Query sql1 args)
          match st.Query s2.sent sql1 args with
          | .error err => .returned s3 (arrListIfc, some err)
          | .ok rows =>
            match h.rows_to_arr_list list rows tableStruct arrIsPtr with
            | .panic p => dbxErrorDefer s3 p (fun e => (arrListIfc, some e))
            | .ok (list1, err) => .returned s3 (.ptrSlice arrType list1, err)

/-- The loop of `loadTableCache`: every row is stored under its composite key. -/
def storeRows (h : Helpers) (tableStruct : TableStruct) : List Record → Cache → Res Cache
  | [], mp => .ok mp
  | row :: rest, mp =>
    match h.get_pk_key tableStruct row with
    | .panic p => .panic p
    | .ok pkKey => storeRows h tableStruct rest (mp.Store pkKey row)

/-- `db.loadTableCache(tableName)`: the table is read in full and its cache replaced by a
new map of the rows read. -/
def DB.loadTableCache (h : Helpers) (st : Store) (s : World) (tableName : String) :
    Step Unit :=
  match s.db.tableStruct.lookup tableName with
  | none => .panic s nilDeref
  | some tableStruct =>
    match (Table tableName).All h st s (.ptrSlice tableStruct.Type_ []) with
    | .exited s1 => .exit s1
    | .returned s1 (list, err) =>
      match err with
      | some (.other msg) => .panic s1 (.runtime msg)
      | _ =>
        let listValue := match list with
          | .ptrSlice _ l => l
          | _ => []
        match storeRows h tableStruct listValue [] with
        | .panic p => .panic s1 p
        | .ok mp =>
          .ok { s1 with db := { s1.db with tableData := mapSet s1.db.tableData tableName mp } } ()

/-- `q.LoadCache()`: reload the cache of the spec's table, when both flags are set. -/
def Query.LoadCache (h : Helpers) (st : Store) (s : World) (q : Query) : Step Unit :=
  if s.db.tableEnableCache = false then .ok s ()
  else
    match s.db.tableStruct.lookup q.table with
    | none => .panic s nilDeref
    | some tableStruct =>
      if tableStruct.EnableCache = false then .ok s ()
      else DB.loadTableCache h st s q.table

/-- `q.Count()`.  The result holds the spec after the call (its selected fields are
overwritten on the store path), the count and the error.  `Len` on the nil map of a table
without cache map is taken to dereference it. -/
def Query.Count (h : Helpers) (st : Store) (s : World) (q : Query) :
    Outcome (Query × Int × Option Err) :=
  let fromCache : Res Bool :=
    if s.db.tableEnableCache then
      match q.getTableStruct s with
      | none => .panic nilDeref
      | some tableStruct =>
        .ok (tableStruct.EnableCache && q.where_ == "" && q.whereM.length == 0)
    else .ok false
  match fromCache with
  | .panic p => dbxErrorDefer s p (fun e => (q, 0, some e))
  | .ok true =>
    match s.db.tableData.lookup q.table with
    | none => dbxErrorDefer s nilDeref (fun e => (q, 0, some e))
    | some mp => .returned s (q, mp.Len, none)
  | .ok false =>
    let q1 := q.Fields ["COUNT(*)"]
    match q1.toSQL h s.db none ACTION_SELECT_ONE [] with
    | .panic p => dbxErrorDefer s p (fun e => (q1, 0, some e))
    | .ok (sql1, args) =>
      let (n, err) := st.QueryRowInt64 s.sent sql1 args
      .returned (s.send (.QueryRow sql1 args)) (q1, n, err)

/-- The body that `Sum`, `Max` and `Min` share: the aggregate becomes the selected field, the
statement is compiled for the read-one action with no schema, and its one value is scanned
into a `sql.NullInt64`.  The result holds the spec after the call, the number and the
error. -/
def Query.scanNullInt64 (h : Helpers) (st : Store) (s : World) (q : Query) (field : String) :
    Outcome (Query × Int × Option Err) :=
  let q1 := q.Fields [field]
  match q1.toSQL h s.db none ACTION_SELECT_ONE [] with
  | .panic p => dbxErrorDefer s p (fun e => (q1, 0, some e))
  | .ok (sql1, args) =>
    let (n2, err) := st.QueryRowNullInt64 s.sent sql1 args
    match err with
    | some e => .returned (s.send (.QueryRow sql1 args)) (q1, 0, some e)
    | none => .returned (s.send (.QueryRow sql1 args)) (q1, n2, none)

/-- `q.Sum(colName)`. -/
def Query.Sum (h : Helpers) (st : Store) (s : World) (q : Query) (colName : String) :
    Outcome (Query × Int × Option Err) :=
  q.scanNullInt64 h st s ("SUM(" ++ colName ++ ")")

/-- `q.Max(colName)`. -/
def Query.Max (h : Helpers) (st : Store) (s : World) (q : Query) (colName : String) :
    Outcome (Query × Int × Option Err) :=
  q.scanNullInt64 h st s ("MAX(" ++ colName ++ ")")

/-- `q.Min(colName)`. -/
def Query.Min (h : Helpers) (st : Store) (s : World) (q : Query) (colName : String) :
    Outcome (Query × Int × Option Err) :=
  q.scanNullInt64 h st s ("MIN(" ++ colName ++ ")")

/-- `q.Truncate()`. -/
def Query.Truncate (st : Store) (s : World) (q : Query) : Outcome (Option Err) :=
  let s1 :=
    if s.db.tableEnableCache then
      { s with db := { s.db with tableData := mapSet s.db.tableData q.table [] } }
    else s
  let sql1 :=
    if s.db.DriverType = DRIVER_MYSQL then "TRUNCATE " ++ q.table
    else "DELETE FROM " ++ q.table
  match DB.Exec st s1 sql1 [] with
  | .ok s2 (_, err) => .returned s2 err
  | .panic s2 p => dbxErrorDefer s2 p (fun e => some e)
  | .exit s2 => .exited s2

/-- The error `errors.New` builds when a table has no cache map. -/
def noTableData (q : Query) : Err :=
  .other ("q.tableData[q.table]: key " ++ q.table ++ " does not exists.")

/-- The cache part of `insert_replace`, after the store write: the generated id is written
into the record, then the record is stored under its composite key.  For a record passed by
value the key is derived from the caller's copy, which does not receive the id.  The result
holds the caller's value and the error. -/
def insertCache (h : Helpers) (s : World) (q : Query) (tableStruct : TableStruct)
    (ifc : Ifc) (r : Record) (isReplace : Bool) (insertId : Int) (err : Option Err) :
    Outcome (Ifc × Int × Option Err) :=
  match s.db.tableData.lookup q.table with
  | none => .returned s (ifc, insertId, some (noTableData q))
  | some mp =>
    let store (ifc1 : Ifc) (arrValue ifc2 : Record) : Outcome (Ifc × Int × Option Err) :=
      match h.get_pk_key tableStruct arrValue with
      | .panic p => dbxErrorDefer s p (fun e => (ifc1, insertId, some e))
      | .ok pkkey =>
        .returned { s with db := { s.db with
            tableData := mapSet s.db.tableData q.table (mp.Store pkkey ifc2) } }
          (ifc1, insertId, err)
    if tableStruct.AutoIncrement ≠ "" ∧ isReplace = false then
      let n := tableStruct.ColFieldMap.colMap.lookup tableStruct.AutoIncrement
      match tableStruct.ColFieldMap.cols[n.getD 0]? with
      | none => dbxErrorDefer s (.runtime "index out of range") (fun e => (ifc, insertId, some e))
      | some col =>
        if n.isNone then
          .returned s (ifc, insertId, some (.other ("auto_increment not found: " ++ q.table
            ++ "." ++ tableStruct.AutoIncrement)))
        else
          match h.set_value_to_ifc r col.FieldPos (.int64 insertId) with
          | .panic p => dbxErrorDefer s p (fun e => (ifc, insertId, some e))
          | .ok r1 =>
            match ifc with
            | .ptr _ => store (.ptr r1) r1 r1
            | _ => store ifc r r1
    else store ifc r r

/-- `q.insert_replace(ifc, isReplace, ignore)`.  The result holds the caller's value after
the call, the insert id and the error. -/
def Query.insert_replace (h : Helpers) (st : Store) (s : World) (q : Query) (ifc : Ifc)
    (isReplace ignore : Bool) : Outcome (Ifc × Int × Option Err) :=
  if s.db.readOnly then .returned s (ifc, 0, none)
  else
    let mustStruct (kind : String) : Outcome (Ifc × Int × Option Err) :=
      dbxErrorDefer s (.dbx ("must pass a struct or struct pointer: " ++ kind))
        (fun e => (ifc, 0, some e))
    match ifc with
    | .other kind => mustStruct kind
    | .ptrOther kind => mustStruct kind
    | .ptr r | .val r =>
      match q.getTableStructFor h st s ifc.TypeOf with
      | .exit s1 => .exited s1
      | .panic s1 p => dbxErrorDefer s1 p (fun e => (ifc, 0, some e))
      | .ok s1 tableStruct =>
        let action :=
          if ignore then ACTION_INSERT_IGNORE
          else if isReplace then ACTION_REPLACE
          else ACTION_INSERT
        match q.toSQL h s1.db (some tableStruct) action [r] with
        | .panic p => dbxErrorDefer s1 p (fun e => (ifc, 0, some e))
        | .ok (sql1, args) =>
          match DB.Exec st s1 sql1 args with
          | .exit s2 => .exited s2
          | .panic s2 p => dbxErrorDefer s2 p (fun e => (ifc, 0, some e))
          | .ok s2 (insertId, err) =>
            if ignore then .returned s2 (ifc, 0, err)
            else if s2.db.tableEnableCache && tableStruct.EnableCache then
              insertCache h s2 q tableStruct ifc r isReplace insertId err
            else .returned s2 (ifc, insertId, err)

/-- `q.Insert(ifc)`. -/
def Query.Insert (h : Helpers) (st : Store) (s : World) (q : Query) (ifc : Ifc) :
    Outcome (Ifc × Int × Option Err) :=
  q.insert_replace h st s ifc false false

/-- `q.Replace(ifc)`. -/
def Query.Replace (h : Helpers) (st : Store) (s : World) (q : Query) (ifc : Ifc) :
    Outcome (Ifc × Int × Option Err) :=
  q.insert_replace h st s ifc true false

/-- `q.InsertIgnore(ifc)`. -/
def Query.InsertIgnore (h : Helpers) (st : Store) (s : World) (q : Query) (ifc : Ifc) :
    Outcome (Ifc × Int × Option Err) :=
  q.insert_replace h st s ifc false true

/-- `q.Update(ifc)`: update by record.  The result holds the caller's value after the call,
the affected-row count and the error. -/
def Query.Update (h : Helpers) (st : Store) (s : World) (q : Query) (ifc : Ifc) :
    Outcome (Ifc × Int × Option Err) :=
  if s.db.readOnly then .returned s (ifc, 0, none)
  else
    let mustStruct (kind : String) : Outcome (Ifc × Int × Option Err) :=
      .returned s (ifc, 0, some (.other ("must pass a struct or struct pointer: " ++ kind)))
    match ifc with
    | .other kind => mustStruct kind
    | .ptrOther kind => mustStruct kind
    | .ptr r | .val r =>
      match q.getTableStructFor h st s ifc.TypeOf with
      | .exit s1 => .exited s1
      | .panic s1 p => dbxErrorDefer s1 p (fun e => (ifc, 0, some e))
      | .ok s1 tableStruct =>
        match q.toSQL h s1.db (some tableStruct) ACTION_UPDATE [r] with
        | .panic p => dbxErrorDefer s1 p (fun e => (ifc, 0, some e))
        | .ok (sql1, args) =>
          match DB.Exec st s1 sql1 args with
          | .exit s2 => .exited s2
          | .panic s2 p => dbxErrorDefer s2 p (fun e => (ifc, 0, some e))
          | .ok s2 (affectedRows, err) =>
            if s2.db.tableEnableCache && tableStruct.EnableCache then
              match h.get_pk_key tableStruct r with
              | .panic p => dbxErrorDefer s2 p (fun e => (ifc, affectedRows, some e))
              | .ok pkkey =>
                match s2.db.tableData.lookup q.table with
                | none => .returned s2 (ifc, affectedRows, some (noTableData q))
                | some mp =>
                  .returned { s2 with db := { s2.db with
                      tableData := mapSet s2.db.tableData q.table (mp.Store pkkey r) } }
                    (ifc, affectedRows, err)
            else .returned s2 (ifc, affectedRows, err)

/-- The first loop of `UpdateM`: the pending field/value lists derived from `m`.  Both are
allocated with the length of `m`; the slot of a pair whose key is a primary-key column is
skipped and keeps its zero value. -/
def Query.setUpdateM (q : Query) (tableStruct : TableStruct) (m : M) : Query :=
  { q with
    updateFields := m.map (fun m => if in_array m.Key tableStruct.PrimaryKey then "" else m.Key)
    updateArgs := m.map (fun m =>
      if in_array m.Key tableStruct.PrimaryKey then .null else m.Value) }

/-- The loop of `UpdateM` that looks up the field path of every pending field; the path of a
column the schema does not know stays nil. -/
def posesOf (tableStruct : TableStruct) : List String → Res (List (List Int))
  | [] => .ok []
  | colName :: rest =>
    match tableStruct.ColFieldMap.colMap.lookup colName with
    | none => (posesOf tableStruct rest).map (fun l => [] :: l)
    | some n =>
      match tableStruct.ColFieldMap.cols[n]? with
      | none => .panic (.runtime "index out of range")
      | some col => (posesOf tableStruct rest).map (fun l => col.FieldPos :: l)

/-- The inner loop of `UpdateM`: the pending values written into one cached record. -/
def patchRecord (h : Helpers) : Record → List (List Int) → List Any → Record × Option Panic
  | old, [], _ => (old, none)
  | old, pos :: ps, vs =>
    match h.set_value_to_ifc old pos (vs.headD .null) with
    | .ok old1 => patchRecord h old1 ps vs.tail
    | .panic p => (old, some p)

/-- The outer loop of `UpdateM`: every row read is looked up in the cache by its composite
key and patched in place; rows absent from the cache are skipped. -/
def patchRows (h : Helpers) (tableStruct : TableStruct) (poses : List (List Int))
    (updateArgs : List Any) : List Record → Cache → Cache × Option Panic
  | [], mp => (mp, none)
  | row :: rest, mp =>
    match h.get_pk_key tableStruct row with
    | .panic p => (mp, some p)
    | .ok pkKey =>
      match mp.Load pkKey with
      | none => patchRows h tableStruct poses updateArgs rest mp
      | some old =>
        match patchRecord h old poses updateArgs with
        | (old1, some p) => (mp.Store pkKey old1, some p)
        | (old1, none) => patchRows h tableStruct poses updateArgs rest (mp.Store pkKey old1)

/-- The secondary read of `UpdateM` and `Delete`: the primary-key columns of the rows under
the current filter, decoded into records.  It yields the records, or the error to return. -/
def selectKeys (h : Helpers) (st : Store) (s : World) (q : Query) (tableStruct : TableStruct) :
    Step (Except Err (List Record)) :=
  let fields2 := arr_to_sql_add tableStruct.PrimaryKey "" ","
  match q.whereToSQL (some tableStruct) with
  | .panic p => .panic s p
  | .ok (where2, args2) =>
    let sql2 := "SELECT " ++ fields2 ++ " FROM " ++ q.table ++ where2
    let s1 := s.send (.Prepare sql2)
    match st.Prepare s.sent sql2 with
    | some err => .ok s1 (.error err)
    | none =>
      let s2 := s1.send (.Query sql2 args2)
      match st.Query s1.sent sql2 args2 with
      | .error err => .ok s2 (.error err)
      | .ok rows =>
        match h.rows_to_arr_list [] rows tableStruct true with
        | .panic p => .panic s2 p
        | .ok (list, _) => .ok s2 (.ok list)

/-- The cache part of `UpdateM`: the matching cache entries patched with the pending values.
It yields unit, or the error to return. -/
def updateMCache (h : Helpers) (st : Store) (s : World) (q : Query) (tableStruct : TableStruct) :
    Step (Except Err Unit) :=
  match selectKeys h st s q tableStruct with
  | .exit s1 => .exit s1
  | .panic s1 p => .panic s1 p
  | .ok s1 (.error err) => .ok s1 (.error err)
  | .ok s1 (.ok list) =>
    match s1.db.tableData.lookup q.table with
    | none => .ok s1 (.error (noTableData q))
    | some mp =>
      match posesOf tableStruct q.updateFields with
      | .panic p => .panic s1 p
      | .ok poses =>
        let (mp1, p) := patchRows h tableStruct poses q.updateArgs list mp
        let s2 := { s1 with db := { s1.db with
          tableData := mapSet s1.db.tableData q.table mp1 } }
        match p with
        | some p => .panic s2 p
        | none => .ok s2 (.ok ())

/-- `q.UpdateM(m)`: update by field/value list.  The result holds the spec after the call
(its pending lists are set), the affected-row count and the error. -/
def Query.UpdateM (h : Helpers) (st : Store) (s : World) (q : Query) (m : M) :
    Outcome (Query × Int × Option Err) :=
  if s.db.readOnly then .returned s (q, 0, none)
  else
    match q.getTableStruct s with
    | none => dbxErrorDefer s nilDeref (fun e => (q, 0, some e))
    | some tableStruct =>
      let q1 := q.setUpdateM tableStruct m
      let compile (s1 : World) : Outcome (Query × Int × Option Err) :=
        match q1.toSQL h s1.db (some tableStruct) ACTION_UPDATE_M [] with
        | .panic p => dbxErrorDefer s1 p (fun e => (q1, 0, some e))
        | .ok (sql1, args) =>
          match DB.Exec st s1 sql1 args with
          | .exit s2 => .exited s2
          | .panic s2 p => dbxErrorDefer s2 p (fun e => (q1, 0, some e))
          | .ok s2 (affectedRows, err) => .returned s2 (q1, affectedRows, err)
      if s.db.tableEnableCache && tableStruct.EnableCache then
        match updateMCache h st s q1 tableStruct with
        | .exit s1 => .exited s1
        | .panic s1 p => dbxErrorDefer s1 p (fun e => (q1, 0, some e))
        | .ok s1 (.error err) => .returned s1 (q1, 0, some err)
        | .ok s1 (.ok _) => compile s1
      else compile s

/-- The loop of `Delete` that removes the cache entry of every row read. -/
def deleteRows (h : Helpers) (tableStruct : TableStruct) : List Record → Cache →
    Cache × Option Panic
  | [], mp => (mp, none)
  | row :: rest, mp =>
    match h.get_pk_key tableStruct row with
    | .panic p => (mp, some p)
    | .ok pkKey => deleteRows h tableStruct rest (mp.Delete pkKey)

/-- The cache part of `Delete`: a full reload for an empty filter, the removal of one entry
for a primary-key filter, and otherwise the removal of the entries of the rows a secondary
read finds.  It yields unit, or the error to return. -/
def deleteCache (h : Helpers) (st : Store) (s : World) (q : Query) (tableStruct : TableStruct) :
    Step (Except Err Unit) :=
  match q.whereToSQL (some tableStruct) with
  | .panic p => .panic s p
  | .ok (where2, _) =>
    match s.db.tableData.lookup q.table with
    | none => .ok s (.error (noTableData q))
    | some mp =>
      if where2 = "" then
        match q.LoadCache h st s with
        | .exit s1 => .exit s1
        | .panic s1 p => .panic s1 p
        | .ok s1 _ => .ok s1 (.ok ())
      else if q.primaryKeyStr.length ≠ 0 then
        .ok { s with db := { s.db with
          tableData := mapSet s.db.tableData q.table (mp.Delete q.primaryKeyStr) } } (.ok ())
      else
        match selectKeys h st s q tableStruct with
        | .exit s1 => .exit s1
        | .panic s1 p => .panic s1 p
        | .ok s1 (.error err) => .ok s1 (.error err)
        | .ok s1 (.ok list) =>
          let (mp1, p) := deleteRows h tableStruct list mp
          let s2 := { s1 with db := { s1.db with
            tableData := mapSet s1.db.tableData q.table mp1 } }
          match p with
          | some p => .panic s2 p
          | none => .ok s2 (.ok ())

/-- `q.Delete()`.  The result holds the affected-row count and the error. -/
def Query.Delete (h : Helpers) (st : Store) (s : World) (q : Query) :
    Outcome (Int × Option Err) :=
  if s.db.readOnly then .returned s (0, none)
  else
    let tableStruct := q.getTableStruct s
    let compile (s1 : World) : Outcome (Int × Option Err) :=
      match q.toSQL h s1.db tableStruct ACTION_DELETE [] with
      | .panic p => dbxErrorDefer s1 p (fun e => (0, some e))
      | .ok (sql1, args) =>
        match DB.Exec st s1 sql1 args with
        | .exit s2 => .exited s2
        | .panic s2 p => dbxErrorDefer s2 p (fun e => (0, some e))
        | .ok s2 n => .returned s2 n
    if s.db.tableEnableCache then
      match tableStruct with
      | none => dbxErrorDefer s nilDeref (fun e => (0, some e))
      | some ts =>
        if ts.EnableCache then
          match deleteCache h st s q ts with
          | .exit s1 => .exited s1
          | .panic s1 p => dbxErrorDefer s1 p (fun e => (0, some e))
          | .ok s1 (.error err) => .returned s1 (0, some err)
          | .ok s1 (.ok _) => compile s1
        else compile s
    else compile s

/-- The world an operation ends in. -/
def Outcome.world {α : Type} : Outcome α → World
  | .returned s _ => s
  | .exited s => s

/-- The world a step ends in. -/
def Step.world {α : Type} : Step α → World
  | .ok s _ => s
  | .panic s _ => s
  | .exit s => s

/-! ## The statements of the spec, in its own words -/

/-- The selected fields of a statement: the spec's fields joined by commas, or `*`. -/
def fieldsClause (q : Query) : String :=
  if q.fields = [] then "*" else Join q.fields ","

/-- The sort clause of a statement: empty without sort pairs, else ` ORDER BY ` and the
compiled pairs. -/
def orderByClause (q : Query) : String :=
  if q.orderBy = [] then "" else " ORDER BY " ++ q.orderByToSQL

/-- The caller's limit clause: none when no limit is set, ` LIMIT n` for a count alone,
` LIMIT offset,count` otherwise. -/
def callerLimit (limitStart limitEnd : Int) : String :=
  if limitStart = 0 ∧ limitEnd = 0 then ""
  else if limitEnd = 0 then " LIMIT " ++ fmtInt limitStart
  else " LIMIT " ++ fmtInt limitStart ++ "," ++ fmtInt limitEnd

/-- The statement of an aggregate read on a spec without primary-key filter: `SELECT`, the
aggregate, ` FROM `, the table, the where clause of the generic filter, the sort clause and
` LIMIT 1`. -/
def aggregateStatement (q : Query) (aggregate : String) : String :=
  "SELECT " ++ aggregate ++ " FROM " ++ q.table ++ q.whereToSQLDo.1 ++ orderByClause q
    ++ " LIMIT 1"

/-- The primary-key filter: the schema's primary-key columns, each as `col=?`, joined by
` AND `. -/
def primaryKeyClause (tableStruct : TableStruct) : String :=
  " WHERE " ++ Join (tableStruct.PrimaryKey.map (fun col => col ++ "=?")) " AND "

/-- The SET list of an update by field/value list: one term `key=?` per pair, in order. -/
def setClause (m : M) : String :=
  Join (m.map (fun p => p.Key ++ "=?")) ","

/-- One call of the filter builder: `Where`, `And`, `Or` with a fragment and its args, or
`WhereM` with a key/value list. -/
inductive FilterCall where
  | Where (str : String) (args : List Any)
  | And (str : String) (args : List Any)
  | Or (str : String) (args : List Any)
  | WhereM (m : M)
  deriving DecidableEq

/-- The spec after one call of the filter builder. -/
def Query.filter (q : Query) : FilterCall → Query
  | .Where str args => q.Where str args
  | .And str args => q.And str args
  | .Or str args => q.Or str args
  | .WhereM m => q.WhereM m

/-- The spec after a sequence of calls of the filter builder. -/
def Query.filters (q : Query) (calls : List FilterCall) : Query :=
  calls.foldl Query.filter q

/-- The fragments of a sequence of calls, in call order, each with the connective that joins
it to the previous one: ` AND ` for `Where` and `And`, ` OR ` for `Or`. -/
def fragmentsOf : List FilterCall → List (String × String)
  | [] => []
  | .Where str _ :: rest => (" AND ", str) :: fragmentsOf rest
  | .And str _ :: rest => (" AND ", str) :: fragmentsOf rest
  | .Or str _ :: rest => (" OR ", str) :: fragmentsOf rest
  | .WhereM _ :: rest => fragmentsOf rest

/-- The args of the fragments of a sequence of calls, in call order. -/
def fragmentArgsOf : List FilterCall → List Any
  | [] => []
  | .Where _ args :: rest => args ++ fragmentArgsOf rest
  | .And _ args :: rest => args ++ fragmentArgsOf rest
  | .Or _ args :: rest => args ++ fragmentArgsOf rest
  | .WhereM _ :: rest => fragmentArgsOf rest

/-- The filter-map of a sequence of calls: the pairs of all `WhereM` calls, in order. -/
def filterMapOf : List FilterCall → M
  | [] => []
  | .WhereM m :: rest => m ++ filterMapOf rest
  | _ :: rest => filterMapOf rest

/-- The fragments as one text: the first fragment, then every later fragment after its
connective. -/
def fragmentsText : List (String × String) → String
  | [] => ""
  | (_, str) :: rest => str ++ String.join (rest.map (fun cf => cf.1 ++ cf.2))

/-- The filter-map terms: `key=?` for every pair, joined by ` AND `. -/
def filterMapTerms (m : M) : String :=
  Join (m.map (fun p => p.Key ++ "=?")) " AND "

/-- The where clause of a sequence of filter calls: empty without any filter, else ` WHERE `,
the fragments, and the filter-map terms, with ` AND ` between the two when both are there. -/
def whereClause (calls : List FilterCall) : String :=
  match fragmentsOf calls, filterMapOf calls with
  | [], [] => ""
  | frag :: frags, [] => " WHERE " ++ fragmentsText (frag :: frags)
  | [], p :: m => " WHERE " ++ filterMapTerms (p :: m)
  | frag :: frags, p :: m =>
    " WHERE " ++ fragmentsText (frag :: frags) ++ " AND " ++ filterMapTerms (p :: m)

/-! ## Sample data -/

/-- The name of the struct type a type denotes, directly or through pointers. -/
def RType.structName : RType → String
  | .struct name => name
  | .ptr elem => elem.structName
  | _ => ""

/-- The value of a record's field, nil when the record has no such field. -/
def Record.get (r : Record) (name : String) : Any :=
  (r.fields.lookup name).getD .null

/-- The record with the field at an index set to a value. -/
def Record.setAt (r : Record) (i : Nat) (v : Any) : Record :=
  { r with fields := r.fields.enum.map (fun e => if e.1 = i then (e.2.1, v) else e.2) }

/-- Modelled from the spec: a sample instance of the absent helpers, for flat records whose
field names are the column names and whose field paths are single indices.  It is used where
an operation is evaluated on a concrete input; the general theorems hold for every instance.
The column values leave out the autoincrement column under the first flag and the
primary-key columns under the second; the composite key is the stringified primary-key
values joined by the separator, trailing separator trimmed. -/
def flatHelpers : Helpers :=
  { struct_fields_range_do := fun c _ _ => .ok c
    get_table_info := fun _ _ _ _ => .ok ([], [], "")
    struct_value_to_args := fun ts r exAuto exPK =>
      .ok ((ts.ColFieldMap.colArr.filter (fun c =>
              !((exAuto && c == ts.AutoIncrement) || (exPK && ts.PrimaryKey.contains c)))).map
            r.get,
           ts.PrimaryKey.map r.get)
    get_pk_key := fun ts r => .ok (TrimRight (pkConcat (ts.PrimaryKey.map r.get)) KEY_SEP)
    set_value_to_ifc := fun r pos v =>
      match pos with
      | [i] => .ok (r.setAt i.toNat v)
      | _ => .panic (.runtime "reflect: call of Set on a struct")
    rows_to_arr_list := fun list rows ts _ =>
      .ok (list ++ rows.rows.map (fun vs => ⟨ts.Type_.structName, rows.columns.zip vs⟩),
        rows.err) }

/-- A store that accepts every call and has no rows. -/
def idleStore : Store :=
  { Prepare := fun _ _ => none
    Query := fun _ _ _ =>
      .ok { columns := [], columnsErr := none, rows := [], scanErr := none, err := none }
    Exec := fun _ _ _ => .ok { LastInsertId := (0, none), RowsAffected := (0, none) }
    QueryRowInt64 := fun _ _ _ => (0, none)
    QueryRowNullInt64 := fun _ _ _ => (0, none) }

/-- A store that reports an error for every statement it is asked to execute. -/
def rejectingStore : Store :=
  { idleStore with Exec := fun _ _ _ => .error (.other "Error 2006: MySQL server has gone away") }

/-- Whether a statement with the given text was executed among the calls made so far. -/
def executed (sent : List StoreCall) (sql1 : String) : Bool :=
  sent.any (fun c =>
    match c with
    | .Exec sql2 _ => sql2 == sql1
    | _ => false)

/-- The number of rows a store reports as affected by a statement, 0 on an error. -/
def affected (r : Except Err Result) : Int :=
  match r with
  | .ok result => result.RowsAffected.1
  | .error _ => 0

/-- A store that accepts an insert-or-ignore statement the first time (one row affected) and
ignores the same statement afterwards (no row affected). -/
def ignoringStore : Store :=
  { idleStore with
    Exec := fun sent sql1 _ =>
      .ok { LastInsertId := (0, none),
            RowsAffected := (if executed sent sql1 then 0 else 1, none) } }

/-- A store whose table `users` holds the two rows `(1, a)` and `(2, b)` until the statement
`DELETE FROM users` is executed, and no row afterwards. -/
def twoUsersStore : Store :=
  { Prepare := fun _ _ => none
    Query := fun sent _ _ =>
      .ok { columns := ["id", "name"], columnsErr := none,
            rows := if executed sent "DELETE FROM users" then []
                    else [[.int64 1, .str "a"], [.int64 2, .str "b"]],
            scanErr := none, err := none }
    Exec := fun sent _ _ =>
      .ok { LastInsertId := (0, none),
            RowsAffected := (if executed sent "DELETE FROM users" then 0 else 2, none) }
    QueryRowInt64 := fun sent _ _ => (if executed sent "DELETE FROM users" then 0 else 2, none)
    QueryRowNullInt64 := fun _ _ _ => (0, none) }

/-- A schema for a table `users` with columns `id` (primary key, autoincrement) and `name`,
cache-enabled. -/
def usersStruct : TableStruct :=
  { ColFieldMap :=
      { fieldMap := [("Id", 0), ("Name", 1)], fieldArr := ["Id", "Name"],
        colMap := [("id", 0), ("name", 1)], colArr := ["id", "name"],
        cols := [⟨"id", "Id", [0]⟩, ⟨"name", "Name", [1]⟩] }
    PrimaryKey := ["id"], PrimaryKeyPos := [[0]], AutoIncrement := "id",
    Type_ := .ptr (.struct "User"), EnableCache := true }

/-- A record of the table `users`. -/
def userRecord (id : Int) (name : String) : Record :=
  { typ := "User", fields := [("id", .int64 id), ("name", .str name)] }

/-- A schema for a table `tags` with columns `name` (primary key, a string) and `note`,
cache-enabled. -/
def tagsStruct : TableStruct :=
  { ColFieldMap :=
      { fieldMap := [("Name", 0), ("Note", 1)], fieldArr := ["Name", "Note"],
        colMap := [("name", 0), ("note", 1)], colArr := ["name", "note"],
        cols := [⟨"name", "Name", [0]⟩, ⟨"note", "Note", [1]⟩] }
    PrimaryKey := ["name"], PrimaryKeyPos := [[0]], AutoIncrement := "",
    Type_ := .ptr (.struct "Tag"), EnableCache := true }

/-- A record of the table `tags`. -/
def tagRecord (name note : String) : Record :=
  { typ := "Tag", fields := [("name", .str name), ("note", .str note)] }

/-- A MySQL handle with the table `tags` registered and both cache flags set, given the
cache of the table. -/
def tagsDB (mp : Cache) : DB :=
  { DriverType := DRIVER_MYSQL, tableStruct := [("tags", tagsStruct)],
    tableData := [("tags", mp)], tableEnableCache := true, readOnly := false }

/-- A handle with the table `users` registered, given its dialect, its caches and its two
flags. -/
def usersDB (DriverType : Nat) (tableData : List (String × Cache))
    (tableEnableCache readOnly : Bool) : DB :=
  { DriverType := DriverType, tableStruct := [("users", usersStruct)], tableData := tableData,
    tableEnableCache := tableEnableCache, readOnly := readOnly }

/-! ## Theorems -/

/-! ### The composite key string -/

/-- The loop of `WherePK` started from any text appends to it what it builds from nothing. -/
theorem pkConcat_foldl (acc : String) (args : List Any) :
    args.foldl (fun str v => str ++ (Sprint v ++ KEY_SEP)) acc = acc ++ pkConcat args := by
  induction args generalizing acc with
  | nil => simp [pkConcat]
  | cons v vs ih =>
    rw [pkConcat, List.foldl_cons, List.foldl_cons, ih (acc ++ (Sprint v ++ KEY_SEP)),
      ih ("" ++ (Sprint v ++ KEY_SEP)), String.empty_append, String.append_assoc]

/-- The loop of `WherePK` on a non-empty tuple: the first value, the separator, the rest. -/
theorem pkConcat_cons (v : Any) (vs : List Any) :
    pkConcat (v :: vs) = (Sprint v ++ KEY_SEP) ++ pkConcat vs := by
  rw [pkConcat, List.foldl_cons, pkConcat_foldl, String.empty_append]

/-- The accumulator of `String.intercalate` against the loop of `WherePK`. -/
theorem intercalate_go_pkConcat (acc : String) (vs : List Any) :
    (acc ++ KEY_SEP) ++ pkConcat vs
      = String.intercalate.go acc KEY_SEP (vs.map Sprint) ++ KEY_SEP := by
  induction vs generalizing acc with
  | nil => simp [pkConcat, String.intercalate.go]
  | cons v vs ih =>
    rw [List.map_cons, String.intercalate.go, ← ih (acc ++ KEY_SEP ++ Sprint v), pkConcat_cons]
    simp only [String.append_assoc]

/-- What the loop of `WherePK` builds for a non-empty tuple is the joined string followed by
one separator. -/
theorem pkConcat_eq_join (v : Any) (vs : List Any) :
    pkConcat (v :: vs) = Join ((v :: vs).map Sprint) KEY_SEP ++ KEY_SEP := by
  rw [pkConcat_cons, intercalate_go_pkConcat]
  rfl

/-- Trimming the separator off a text that ends with one more separator. -/
theorem TrimRight_append_sep (x : String) :
    TrimRight (x ++ KEY_SEP) KEY_SEP = TrimRight x KEY_SEP := by
  simp [TrimRight, KEY_SEP, String.data_append, List.dropWhile_cons]

/-- Trimming the separator leaves a text as it is exactly when it does not end with the
separator character. -/
theorem TrimRight_eq_self_iff (x : String) :
    TrimRight x KEY_SEP = x ↔ x.data.getLast? ≠ some '-' := by
  have hrev : TrimRight x KEY_SEP = x ↔
      x.data.reverse.dropWhile (fun c => KEY_SEP.data.contains c) = x.data.reverse := by
    constructor
    · intro h
      have hd := congrArg String.data h
      simp only [TrimRight] at hd
      have := congrArg List.reverse hd
      simpa using this
    · intro h
      apply String.ext
      simp only [TrimRight]
      rw [h, List.reverse_reverse]
  rw [hrev, List.getLast?_eq_head?_reverse]
  cases hr : x.data.reverse with
  | nil => simp
  | cons c r =>
    by_cases hc : c = '-'
    · subst hc
      simp only [List.head?_cons, ne_eq, not_true_eq_false, iff_false]
      intro h
      have hlen := congrArg List.length h
      have hle := (List.dropWhile_sublist (l := r) (fun c => KEY_SEP.data.contains c)).length_le
      simp [List.dropWhile_cons, KEY_SEP] at hlen
      simp [KEY_SEP] at hle
      omega
    · simp [List.dropWhile_cons, KEY_SEP, hc]

/-- The composite key string of `WherePK` on a non-empty tuple is the stringified values
joined by the separator exactly when that joined string does not end with the separator
character. -/
theorem WherePK_key_eq_join_iff (q : Query) (v : Any) (vs : List Any) :
    (q.WherePK (v :: vs)).primaryKeyStr = Join ((v :: vs).map Sprint) KEY_SEP ↔
      (Join ((v :: vs).map Sprint) KEY_SEP).data.getLast? ≠ some '-' := by
  rw [← TrimRight_eq_self_iff]
  simp only [Query.WherePK]
  rw [pkConcat_eq_join, TrimRight_append_sep]

/-- C2: the composite key string of `WherePK` is not always the stringified values joined by
the separator: `TrimRight` removes every trailing separator character, so a last value that
ends with the separator, or is empty, loses text that the joined string keeps, and the key
of `("a-")` is the key of `("a")`.  The tuple `(7, "a")` does give `7-a`. -/
theorem WherePK_key_overtrimmed :
    ((Table "tags").WherePK [.str "a-"]).primaryKeyStr = "a" ∧
    Join ([Any.str "a-"].map Sprint) KEY_SEP = "a-" ∧
    ((Table "tags").WherePK [.str "a-"]).primaryKeyStr
      = ((Table "tags").WherePK [.str "a"]).primaryKeyStr ∧
    ((Table "items").WherePK [.int 7, .str ""]).primaryKeyStr = "7" ∧
    Join ([Any.int 7, Any.str ""].map Sprint) KEY_SEP = "7-" ∧
    ((Table "items").WherePK [.int 7, .str "a"]).primaryKeyStr = "7-a" := by
  decide

/-! ### The compiled filter -/

/-- C1: a spec with at least one primary-key value compiles only the primary-key filter: the
where clause is the primary-key clause of the schema, the args are the primary-key values in
order, and both are what the spec compiles to with its generic filter cleared. -/
theorem whereToSQL_primary_key_exclusive (tableStruct : TableStruct) (q : Query)
    (hpk : 0 < q.primaryArgs.length) :
    q.whereToSQL (some tableStruct) = .ok (primaryKeyClause tableStruct, q.primaryArgs) ∧
    q.whereToSQL (some tableStruct) =
      ({ q with where_ := "", whereArgs := [], whereM := [] } : Query).whereToSQL
        (some tableStruct) := by
  constructor <;>
    simp [Query.whereToSQL, hpk, primaryKeyClause, arr_to_sql_add]

/-- C1, at a spec that carries a generic filter, a filter-map and one primary-key value. -/
theorem whereToSQL_primary_key_exclusive_witness :
    0 < ((((Table "users").Where "age>?" [.int 3]).WhereM [⟨"name", .str "a"⟩]).WherePK
          [.int 7]).primaryArgs.length ∧
    ((((Table "users").Where "age>?" [.int 3]).WhereM [⟨"name", .str "a"⟩]).WherePK
        [.int 7]).whereToSQL (some usersStruct) = .ok (" WHERE id=?", [.int 7]) :=
  ⟨by decide,
   (whereToSQL_primary_key_exclusive usersStruct
      ((((Table "users").Where "age>?" [.int 3]).WhereM [⟨"name", .str "a"⟩]).WherePK [.int 7])
      (by decide)).1.trans (by decide)⟩

/-! ### The compiled statements -/

/-- The selected fields computed by `toSQL` are the fields clause. -/
theorem fields_eq_fieldsClause (q : Query) :
    (if q.fields.length > 0 then Join q.fields "," else "*") = fieldsClause q := by
  cases hf : q.fields <;> simp [fieldsClause, hf]

/-- The sort clause computed by `toSQL` is the sort clause. -/
theorem orderBy_eq_orderByClause (q : Query) :
    (if q.orderBy.length > 0 then " ORDER BY " ++ q.orderByToSQL else "") = orderByClause q := by
  cases ho : q.orderBy <;> simp [orderByClause, ho]

/-- The limit clause computed by `toSQL` is the caller's limit clause. -/
theorem limitSQL_eq_callerLimit (q : Query) :
    q.limitSQL = callerLimit q.limitStart q.limitEnd := by
  unfold Query.limitSQL callerLimit
  by_cases h1 : q.limitStart = 0 <;> by_cases h2 : q.limitEnd = 0 <;> simp [h1, h2]

/-- C6: the statement compiled for the read-one action is `SELECT`, the fields, ` FROM `, the
table, the where clause, the sort clause and then exactly ` LIMIT 1`, with the filter's args;
and it is the same statement whatever offset and count the caller set with `Limit`. -/
theorem toSQL_select_one_limit_one (h : Helpers) (db : DB) (q : Query)
    (tableStruct : Option TableStruct) (rvalues : List Record) (limitStart : Int)
    (limitEnds : List Int) :
    q.toSQL h db tableStruct ACTION_SELECT_ONE rvalues =
      (q.whereToSQL tableStruct).map (fun wa =>
        ("SELECT " ++ fieldsClause q ++ " FROM " ++ q.table ++ wa.1 ++ orderByClause q
          ++ " LIMIT 1", wa.2)) ∧
    (q.Limit limitStart limitEnds).toSQL h db tableStruct ACTION_SELECT_ONE rvalues =
      q.toSQL h db tableStruct ACTION_SELECT_ONE rvalues := by
  constructor
  · unfold Query.toSQL
    rw [fields_eq_fieldsClause, orderBy_eq_orderByClause]
    cases q.whereToSQL tableStruct <;> simp [Res.bind, Res.map]
  · rfl

/-- The update-by-record statement ends with ` LIMIT 1` on the MySQL dialect, and with the
caller's limit clause on every other dialect. -/
theorem toSQL_update_limit (h : Helpers) (db : DB) (q : Query)
    (tableStruct : Option TableStruct) (rvalues : List Record) (sql1 : String)
    (args : List Any)
    (hc : q.toSQL h db tableStruct ACTION_UPDATE rvalues = .ok (sql1, args)) :
    ∃ body, sql1 = body ++
      (if db.DriverType = DRIVER_MYSQL then " LIMIT 1"
       else callerLimit q.limitStart q.limitEnd) := by
  unfold Query.toSQL at hc
  rw [limitSQL_eq_callerLimit] at hc
  cases hw : q.whereToSQL tableStruct with
  | panic p => simp [hw, Res.bind] at hc
  | ok wa =>
    obtain ⟨where_, wargs⟩ := wa
    cases rvalues with
    | nil => simp [hw, Res.bind] at hc
    | cons rv rest =>
      cases tableStruct with
      | none => simp [hw, Res.bind] at hc
      | some ts =>
        cases hv : h.struct_value_to_args ts rv true true with
        | panic p => simp [hw, hv, Res.bind] at hc
        | ok ua =>
          simp only [hw, hv, Res.bind, Res.ok.injEq, Prod.mk.injEq] at hc
          exact ⟨_, hc.1.symm⟩

/-- C7: the update-by-record statement keeps the caller's limit clause on the SQLite
dialect.  For a spec with `Limit(5)` it ends with ` LIMIT 5`, where the update-by-fields
statement of the same spec carries no limit clause; on the MySQL dialect it ends with
` LIMIT 1`. -/
theorem toSQL_update_sqlite_keeps_limit :
    ((Table "users").Limit 5 []).toSQL flatHelpers (usersDB DRIVER_SQLITE [] false false)
        (some usersStruct) ACTION_UPDATE [userRecord 1 "b"]
      = .ok ("UPDATE users SET name=? WHERE id=? LIMIT 5", [.str "b", .int64 1]) ∧
    (((Table "users").Limit 5 []).setUpdateM usersStruct [⟨"name", .str "b"⟩]).toSQL flatHelpers
        (usersDB DRIVER_SQLITE [] false false) (some usersStruct) ACTION_UPDATE_M []
      = .ok ("UPDATE users SET name=?", [.str "b"]) ∧
    ((Table "users").Limit 5 []).toSQL flatHelpers (usersDB DRIVER_MYSQL [] false false)
        (some usersStruct) ACTION_UPDATE [userRecord 1 "b"]
      = .ok ("UPDATE users SET name=? WHERE id=? LIMIT 1", [.str "b", .int64 1]) := by
  decide

/-- C8: the update-by-fields and the delete statements carry no limit clause on the SQLite
dialect and exactly the caller's limit clause on the MySQL dialect; the delete statement is
`DELETE FROM`, the table, the where clause and that limit clause, with the args of the
compiled filter. -/
theorem toSQL_updateM_delete_limit (h : Helpers) (db : DB) (q : Query)
    (tableStruct : Option TableStruct) (rvalues : List Record) :
    q.toSQL h { db with DriverType := DRIVER_SQLITE } tableStruct ACTION_UPDATE_M rvalues =
      (q.whereToSQL tableStruct).map (fun wa =>
        ("UPDATE " ++ q.table ++ " SET " ++ arr_to_sql_add q.updateFields "=?" ","
          ++ wa.1, q.updateArgs ++ wa.2)) ∧
    q.toSQL h { db with DriverType := DRIVER_MYSQL } tableStruct ACTION_UPDATE_M rvalues =
      (q.whereToSQL tableStruct).map (fun wa =>
        ("UPDATE " ++ q.table ++ " SET " ++ arr_to_sql_add q.updateFields "=?" ","
          ++ wa.1 ++ callerLimit q.limitStart q.limitEnd, q.updateArgs ++ wa.2)) ∧
    q.toSQL h { db with DriverType := DRIVER_SQLITE } tableStruct ACTION_DELETE rvalues =
      (q.whereToSQL tableStruct).map (fun wa => ("DELETE FROM " ++ q.table ++ wa.1, wa.2)) ∧
    q.toSQL h { db with DriverType := DRIVER_MYSQL } tableStruct ACTION_DELETE rvalues =
      (q.whereToSQL tableStruct).map (fun wa =>
        ("DELETE FROM " ++ q.table ++ wa.1 ++ callerLimit q.limitStart q.limitEnd, wa.2)) := by
  refine ⟨?_, ?_, ?_, ?_⟩ <;>
    (unfold Query.toSQL
     rw [limitSQL_eq_callerLimit]
     cases q.whereToSQL tableStruct <;>
       simp [Res.bind, Res.map, DRIVER_SQLITE, DRIVER_MYSQL, arr_to_sql_add])

/-- C9 as stated fails: for a list that names the primary-key column, `UpdateM` compiles a
SET list whose first term has an empty column name, and binds nil in place of the value
given for it. -/
theorem UpdateM_primary_key_pair_blanked :
    ((Table "users").Where "age>?" [.int 3]).UpdateM flatHelpers idleStore
        ⟨usersDB DRIVER_MYSQL [] false false, []⟩ [⟨"id", .int 5⟩, ⟨"name", .str "b"⟩]
      = .returned
          ⟨usersDB DRIVER_MYSQL [] false false,
            [.Exec "UPDATE users SET =?,name=? WHERE age>?" [.null, .str "b", .int 3]]⟩
          (((Table "users").Where "age>?" [.int 3]).setUpdateM usersStruct
            [⟨"id", .int 5⟩, ⟨"name", .str "b"⟩], 0, none) ∧
    "UPDATE users SET =?,name=? WHERE age>?"
      ≠ "UPDATE users SET " ++ setClause [⟨"id", .int 5⟩, ⟨"name", .str "b"⟩] ++ " WHERE age>?" := by
  decide

/-- The pending lists of `UpdateM` are the keys and the values of `m` when no key of `m` is a
primary-key column. -/
theorem setUpdateM_of_no_primary_key (q : Query) (tableStruct : TableStruct) (m : M)
    (hm : ∀ p ∈ m, in_array p.Key tableStruct.PrimaryKey = false) :
    (q.setUpdateM tableStruct m).updateFields = m.map (fun p => p.Key) ∧
    (q.setUpdateM tableStruct m).updateArgs = m.map (fun p => p.Value) := by
  constructor
  · exact List.map_congr_left (fun p hp => by simp [hm p hp])
  · exact List.map_congr_left (fun p hp => by simp [hm p hp])

/-- C9, amended: for every field/value list `m` none of whose keys is a primary-key column of
the table's schema, the update-by-fields statement compiled from the pending lists that
`UpdateM` derives from `m` has as SET list exactly one term `key=?` per pair of `m`, in the
order of `m`, and as args the values of `m` in that order followed by the args of the
compiled filter. -/
theorem UpdateM_set_list (h : Helpers) (db : DB) (q : Query) (tableStruct : TableStruct)
    (m : M) (rvalues : List Record)
    (hm : ∀ p ∈ m, in_array p.Key tableStruct.PrimaryKey = false) :
    (q.setUpdateM tableStruct m).toSQL h db (some tableStruct) ACTION_UPDATE_M rvalues =
      (q.whereToSQL (some tableStruct)).map (fun wa =>
        ("UPDATE " ++ q.table ++ " SET " ++ setClause m ++ wa.1
          ++ (if db.DriverType = DRIVER_SQLITE then "" else callerLimit q.limitStart q.limitEnd),
         m.map (fun p => p.Value) ++ wa.2)) := by
  obtain ⟨hf, ha⟩ := setUpdateM_of_no_primary_key q tableStruct m hm
  have hw : (q.setUpdateM tableStruct m).whereToSQL (some tableStruct)
      = q.whereToSQL (some tableStruct) := rfl
  have hl : (q.setUpdateM tableStruct m).limitSQL = callerLimit q.limitStart q.limitEnd :=
    limitSQL_eq_callerLimit q
  have ht : (q.setUpdateM tableStruct m).table = q.table := rfl
  unfold Query.toSQL
  rw [hw, hl, hf, ha, ht]
  cases q.whereToSQL (some tableStruct) <;>
    simp [Res.bind, Res.map, arr_to_sql_add, setClause, Function.comp_def]

/-- C9, amended, at a list with the one pair `name = b` on the table `users`. -/
theorem UpdateM_set_list_witness :
    (((Table "users").Where "age>?" [.int 3]).setUpdateM usersStruct [⟨"name", .str "b"⟩]).toSQL
        flatHelpers (usersDB DRIVER_MYSQL [] false false) (some usersStruct) ACTION_UPDATE_M []
      = .ok ("UPDATE users SET name=? WHERE age>?", [.str "b", .int 3]) :=
  (UpdateM_set_list flatHelpers (usersDB DRIVER_MYSQL [] false false)
      ((Table "users").Where "age>?" [.int 3]) usersStruct [⟨"name", .str "b"⟩] []
      (by decide)).trans (by decide)

/-! ### The cache fast paths -/

/-- C3 as stated fails: with both flags set, the schema registered, the cache map present and
one primary-key value, `One` answers the no-rows sentinel and leaves the destination as it
was although the cache holds, under the spec's (empty) composite key string, the record
whose primary key is the empty string; and a cache entry of another record type than the
destination's ends the process instead of being received. -/
theorem One_cache_hit_not_received :
    0 < ((Table "tags").WherePK [.str ""]).primaryArgs.length ∧
    flatHelpers.get_pk_key tagsStruct (tagRecord "" "z") = .ok "" ∧
    Cache.Load [("", tagRecord "" "z")] ((Table "tags").WherePK [.str ""]).primaryKeyStr
      = some (tagRecord "" "z") ∧
    ((Table "tags").WherePK [.str ""]).One flatHelpers idleStore
        ⟨tagsDB [("", tagRecord "" "z")], []⟩ (.ptr (tagRecord "q" "r"))
      = .returned ⟨tagsDB [("", tagRecord "" "z")], []⟩
          (.ptr (tagRecord "q" "r"), some .ErrNoRows) ∧
    Cache.Load [("a", tagRecord "a" "z")] ((Table "tags").WherePK [.str "a"]).primaryKeyStr
      = some (tagRecord "a" "z") ∧
    ((Table "tags").WherePK [.str "a"]).One flatHelpers idleStore
        ⟨tagsDB [("a", tagRecord "a" "z")], []⟩ (.ptr (userRecord 9 "q"))
      = .exited ⟨tagsDB [("a", tagRecord "a" "z")], []⟩ := by
  decide

/-- C3, amended: on a table whose schema is registered, with both cache flags set, the cache
map present and at least one primary-key value, `One` into a pointer to a record ends in the
world it started in (no call reaches the store); when the composite key string is non-empty
and the cache holds under it an entry of the destination's record type, the destination
receives that record with no error; when the key string is empty or the cache holds no entry
under it, the result is the no-rows sentinel and the destination is unchanged. -/
theorem One_cache_fast_path (h : Helpers) (st : Store) (s : World) (q : Query)
    (dest : Record) (tableStruct : TableStruct) (mp : Cache)
    (hreg : s.db.tableStruct.lookup q.table = some tableStruct)
    (hall : s.db.tableEnableCache = true) (hown : tableStruct.EnableCache = true)
    (hmp : s.db.tableData.lookup q.table = some mp)
    (hpk : 0 < q.primaryArgs.length) :
    (q.One h st s (.ptr dest)).world = s ∧
    (∀ r, q.primaryKeyStr ≠ "" → mp.Load q.primaryKeyStr = some r → r.typ = dest.typ →
      q.One h st s (.ptr dest) = .returned s (.ptr r, none)) ∧
    (q.primaryKeyStr = "" ∨ mp.Load q.primaryKeyStr = none →
      q.One h st s (.ptr dest) = .returned s (.ptr dest, some .ErrNoRows)) := by
  have hlen : q.primaryKeyStr.length ≠ 0 ↔ q.primaryKeyStr ≠ "" := by
    constructor
    · intro hn hs
      rw [hs] at hn
      exact hn rfl
    · intro hn hz
      have hd : q.primaryKeyStr.data.length = 0 := hz
      exact hn (String.ext (List.length_eq_zero.mp hd))
  by_cases hkey : q.primaryKeyStr = ""
  · have hz : ¬ q.primaryKeyStr.length ≠ 0 := fun hn => hlen.mp hn hkey
    simp [Query.One, Query.getTableStructFor, Ifc.TypeOf, hreg, hall, hown, hpk, hz,
      Outcome.world, hkey]
  · have hnz : q.primaryKeyStr.length ≠ 0 := hlen.mpr hkey
    cases hload : mp.Load q.primaryKeyStr with
    | none =>
      simp [Query.One, Query.getTableStructFor, Ifc.TypeOf, hreg, hall, hown, hpk, hnz, hmp,
        hload, Outcome.world, hkey]
    | some r =>
      by_cases htyp : r.typ = dest.typ
      · simp [Query.One, Query.getTableStructFor, Ifc.TypeOf, hreg, hall, hown, hpk, hnz, hmp,
          hload, Outcome.world, hkey, htyp]
      · simp [Query.One, Query.getTableStructFor, Ifc.TypeOf, hreg, hall, hown, hpk, hnz, hmp,
          hload, Outcome.world, hkey, htyp, dbxErrorDefer]

/-- C3, amended, at a cache hit: the key string `1` and a cached record of the destination's
type. -/
theorem One_cache_fast_path_witness :
    ((Table "users").WherePK [.int 1]).One flatHelpers idleStore
        ⟨usersDB DRIVER_MYSQL [("users", [("1", userRecord 1 "z")])] true false, []⟩
        (.ptr (userRecord 9 "q"))
      = .returned ⟨usersDB DRIVER_MYSQL [("users", [("1", userRecord 1 "z")])] true false, []⟩
          (.ptr (userRecord 1 "z"), none) :=
  (One_cache_fast_path flatHelpers idleStore
      ⟨usersDB DRIVER_MYSQL [("users", [("1", userRecord 1 "z")])] true false, []⟩
      ((Table "users").WherePK [.int 1]) (userRecord 9 "q") usersStruct
      [("1", userRecord 1 "z")] (by decide) (by decide) (by decide) (by decide)
      (by decide)).2.1 (userRecord 1 "z") (by decide) (by decide) (by decide)

/-- On a cache-enabled table with its cache map present, `Count` on a spec without generic
filter and without filter-map is answered with the number of cache entries and reaches no
store, whatever primary-key values the spec carries. -/
theorem Count_from_cache (h : Helpers) (st : Store) (s : World) (q : Query)
    (tableStruct : TableStruct) (mp : Cache)
    (hreg : s.db.tableStruct.lookup q.table = some tableStruct)
    (hall : s.db.tableEnableCache = true) (hown : tableStruct.EnableCache = true)
    (hmp : s.db.tableData.lookup q.table = some mp)
    (hw : q.where_ = "") (hm : q.whereM = []) :
    q.Count h st s = .returned s (q, mp.Len, none) := by
  simp [Query.Count, Query.getTableStruct, hreg, hall, hown, hmp, hw, hm]

/-- C10: `Count` does not look at the primary-key filter.  On a cache-enabled table whose
cache holds two entries, a spec that carries a primary-key value and no other filter is
answered with the total entry count, 2, and no call reaches the store. -/
theorem Count_ignores_primary_key_filter :
    0 < ((Table "users").WherePK [.int 1]).primaryArgs.length ∧
    ((Table "users").WherePK [.int 1]).Count flatHelpers idleStore
        ⟨usersDB DRIVER_MYSQL [("users", [("1", userRecord 1 "z"), ("2", userRecord 2 "y")])]
          true false, []⟩
      = .returned
          ⟨usersDB DRIVER_MYSQL [("users", [("1", userRecord 1 "z"), ("2", userRecord 2 "y")])]
            true false, []⟩
          ((Table "users").WherePK [.int 1], 2, none) := by
  decide

/-! ### The read-only mode -/

/-- C4: with the read-only flag set, `Insert`, `Replace`, `InsertIgnore`, `Update`, `UpdateM`
and `Delete` return zero and no error in the world they started in: no call reaches the
store, and the caches, the schema registry, the caller's value and the query spec are
unchanged. -/
theorem readOnly_writes_are_noops (h : Helpers) (st : Store) (s : World) (q : Query)
    (ifc : Ifc) (m : M) (hro : s.db.readOnly = true) :
    q.Insert h st s ifc = .returned s (ifc, 0, none) ∧
    q.Replace h st s ifc = .returned s (ifc, 0, none) ∧
    q.InsertIgnore h st s ifc = .returned s (ifc, 0, none) ∧
    q.Update h st s ifc = .returned s (ifc, 0, none) ∧
    q.UpdateM h st s m = .returned s (q, 0, none) ∧
    q.Delete h st s = .returned s (0, none) := by
  simp [Query.Insert, Query.Replace, Query.InsertIgnore, Query.insert_replace, Query.Update,
    Query.UpdateM, Query.Delete, hro]

/-- C4, on a read-only handle with a cached table: an insert of a record is a no-op. -/
theorem readOnly_writes_are_noops_witness :
    (Table "users").Insert flatHelpers idleStore
        ⟨usersDB DRIVER_MYSQL [("users", [("1", userRecord 1 "z")])] true true, []⟩
        (.ptr (userRecord 0 "b"))
      = .returned ⟨usersDB DRIVER_MYSQL [("users", [("1", userRecord 1 "z")])] true true, []⟩
          (.ptr (userRecord 0 "b"), 0, none) :=
  (readOnly_writes_are_noops flatHelpers idleStore
      ⟨usersDB DRIVER_MYSQL [("users", [("1", userRecord 1 "z")])] true true, []⟩
      (Table "users") (.ptr (userRecord 0 "b")) [] (by decide)).1

/-- Whatever the store answers, `Exec` ends in the world with the one more call sent. -/
theorem Exec_world (st : Store) (s : World) (sql1 : String) (args : List Any) :
    (DB.Exec st s sql1 args).world = s.send (.Exec sql1 args) := by
  unfold DB.Exec
  cases st.Exec s.sent sql1 args with
  | error e => rfl
  | ok result =>
    simp only
    split_ifs <;> rfl

/-- `Truncate` sends the clear-table statement of the dialect in every world, whatever the
read-only flag. -/
theorem Truncate_sends (st : Store) (s : World) (q : Query) :
    (q.Truncate st s).world.sent = s.sent ++
      [.Exec (if s.db.DriverType = DRIVER_MYSQL then "TRUNCATE " ++ q.table
              else "DELETE FROM " ++ q.table) []] := by
  unfold Query.Truncate
  generalize hs1 : (if s.db.tableEnableCache = true then
      ({ s with db := { s.db with tableData := mapSet s.db.tableData q.table [] } } : World)
    else s) = s1
  have hsent : s1.sent = s.sent := by
    rw [← hs1]
    split_ifs <;> rfl
  generalize hsql : (if s.db.DriverType = DRIVER_MYSQL then "TRUNCATE " ++ q.table
    else "DELETE FROM " ++ q.table) = sql1
  have hw := Exec_world st s1 sql1 []
  cases hE : DB.Exec st s1 sql1 [] with
  | ok s2 a =>
    rw [hE] at hw
    simp only [Step.world] at hw
    simp [hE, Outcome.world, hw, World.send, hsent]
  | panic s2 p =>
    rw [hE] at hw
    simp only [Step.world] at hw
    cases p <;> simp [hE, dbxErrorDefer, Outcome.world, hw, World.send, hsent]
  | exit s2 =>
    rw [hE] at hw
    simp only [Step.world] at hw
    simp [hE, Outcome.world, hw, World.send, hsent]

/-- C5: `Truncate` does not look at the read-only flag.  On a read-only handle with the cache
enabled it replaces the table's cache by an empty map and sends the clear-table statement
to the store. -/
theorem Truncate_ignores_readOnly :
    (usersDB DRIVER_MYSQL [("users", [("1", userRecord 1 "z")])] true true).readOnly = true ∧
    (Table "users").Truncate idleStore
        ⟨usersDB DRIVER_MYSQL [("users", [("1", userRecord 1 "z")])] true true, []⟩
      = .returned
          ⟨usersDB DRIVER_MYSQL [("users", [])] true true, [.Exec "TRUNCATE users" []]⟩
          none := by
  decide

/-! ### The column/field mapping -/

/-- Looking a key up in a list that starts with that key. -/
theorem lookup_cons_self {β : Type} (k : String) (b : β) (es : List (String × β)) :
    List.lookup k ((k, b) :: es) = some b := by
  rw [List.lookup_cons, beq_self_eq_true]

/-- Looking a key up in a list that starts with another key. -/
theorem lookup_cons_ne {β : Type} (k a : String) (b : β) (es : List (String × β))
    (h : k ≠ a) : List.lookup k ((a, b) :: es) = List.lookup k es := by
  rw [List.lookup_cons, beq_false_of_ne h]

/-- Reading a Go map whose entries under a key were all replaced. -/
theorem lookup_map_set {β : Type} (m : List (String × β)) (k k' : String) (v : β) :
    (m.map (fun e => if e.1 == k then (k, v) else e)).lookup k' =
      if k' = k then (if m.any (fun e => e.1 == k) then some v else none)
      else m.lookup k' := by
  induction m with
  | nil => simp
  | cons e es ih =>
    obtain ⟨a, b⟩ := e
    rw [List.map_cons, List.any_cons]
    by_cases hak : a = k
    · have hhead : (if ((a, b).1 == k) = true then (k, v) else (a, b)) = (k, v) := by
        simp [hak]
      rw [hhead]
      by_cases hk : k' = k
      · rw [hk, lookup_cons_self]
        simp [hak]
      · rw [lookup_cons_ne k' k v _ hk, ih, if_neg hk, if_neg hk, hak,
          lookup_cons_ne k' k b es hk]
    · have hhead : (if ((a, b).1 == k) = true then (k, v) else (a, b)) = (a, b) := by
        simp [hak]
      rw [hhead]
      by_cases hka : k' = a
      · have hk : k' ≠ k := fun h => hak (hka.symm.trans h)
        rw [hka, lookup_cons_self, if_neg (hka ▸ hk), lookup_cons_self]
      · rw [lookup_cons_ne k' a b _ hka, ih]
        by_cases hk : k' = k
        · have hbeq : ((a, b).1 == k) = false := beq_false_of_ne hak
          rw [if_pos hk, if_pos hk, hbeq, Bool.false_or]
        · rw [if_neg hk, if_neg hk, lookup_cons_ne k' a b es hka]

/-- Reading a Go map extended by one entry at its end. -/
theorem lookup_append_single {β : Type} (m : List (String × β)) (k k' : String) (v : β) :
    (m ++ [(k, v)]).lookup k' = (m.lookup k').or (if k' = k then some v else none) := by
  induction m with
  | nil =>
    by_cases hk : k' = k
    · rw [hk, List.nil_append, lookup_cons_self]
      simp
    · rw [List.nil_append, lookup_cons_ne k' k v [] hk]
      simp [hk]
  | cons e es ih =>
    obtain ⟨a, b⟩ := e
    by_cases hka : k' = a
    · rw [hka, List.cons_append, lookup_cons_self, lookup_cons_self]
      rfl
    · rw [List.cons_append, lookup_cons_ne k' a b _ hka, lookup_cons_ne k' a b _ hka, ih]

/-- A key that no entry carries reads as absent. -/
theorem lookup_eq_none_of_not_any {β : Type} (m : List (String × β)) (k : String)
    (h : m.any (fun e => e.1 == k) = false) : m.lookup k = none := by
  induction m with
  | nil => rfl
  | cons e es ih =>
    obtain ⟨a, b⟩ := e
    rw [List.any_cons, Bool.or_eq_false_iff] at h
    have hak : k ≠ a := fun h' => by
      have h1 := h.1
      rw [h'] at h1
      simp at h1
    rw [lookup_cons_ne k a b es hak]
    exact ih h.2

/-- Reading a Go map after the assignment `m[k] = v`. -/
theorem lookup_mapSet {β : Type} (m : List (String × β)) (k k' : String) (v : β) :
    (mapSet m k v).lookup k' = if k' = k then some v else m.lookup k' := by
  unfold mapSet
  by_cases h : m.any (fun e => e.1 == k) = true
  · rw [if_pos h, lookup_map_set, if_pos h]
  · have h' : m.any (fun e => e.1 == k) = false := Bool.eq_false_iff.mpr h
    rw [if_neg h, lookup_append_single]
    by_cases hk : k' = k
    · rw [hk, lookup_eq_none_of_not_any m k h']
      simp
    · rw [if_neg hk, if_neg hk]
      cases m.lookup k' <;> rfl

/-- A sequence of `Add` calls extended by one call. -/
theorem addAll_append_single (adds : List Col) (col : Col) :
    addAll (adds ++ [col]) = (addAll adds).Add col := by
  simp [addAll, List.foldl_append]

/-- `Add` of a descriptor whose field name is registered changes nothing. -/
theorem Add_of_Exists (c : ColFieldMap) (col : Col) (h : c.Exists col.FieldName = true) :
    c.Add col = c := by
  simp [ColFieldMap.Add, h]

/-- The descriptor list after `Add` of a descriptor whose field name is new. -/
theorem Add_cols (c : ColFieldMap) (col : Col) (h : c.Exists col.FieldName = false) :
    (c.Add col).cols = c.cols ++ [col] := by
  unfold ColFieldMap.Add
  rw [h]
  by_cases hc : col.ColName = "" <;> simp [hc]

/-- The field-name index after `Add` of a descriptor whose field name is new. -/
theorem Add_fieldMap (c : ColFieldMap) (col : Col) (h : c.Exists col.FieldName = false) :
    (c.Add col).fieldMap = mapSet c.fieldMap col.FieldName c.cols.length := by
  unfold ColFieldMap.Add
  rw [h]
  by_cases hc : col.ColName = "" <;> simp [hc]

/-- The column-name index after `Add` of a descriptor whose field name is new. -/
theorem Add_colMap (c : ColFieldMap) (col : Col) (h : c.Exists col.FieldName = false) :
    (c.Add col).colMap =
      if col.ColName ≠ "" then mapSet c.colMap col.ColName c.cols.length else c.colMap := by
  unfold ColFieldMap.Add
  rw [h]
  by_cases hc : col.ColName = "" <;> simp [hc]

/-- A descriptor list extended at its end keeps what it holds at an index. -/
theorem getElem?_append_single_of_some (cols : List Col) (col x : Col) (i : Nat)
    (h : cols[i]? = some x) : (cols ++ [col])[i]? = some x := by
  have hi : i < cols.length := by
    by_contra hn
    rw [List.getElem?_eq_none (Nat.le_of_not_lt hn)] at h
    exact Option.noConfusion h
  rw [List.getElem?_append_left hi, h]

/-- What an answer of `GetByFieldName` says about the index and the descriptor list. -/
theorem GetByFieldName_eq_ok (c : ColFieldMap) (f : String) (r : Option Col) :
    c.GetByFieldName f = .ok r ↔
      (c.fieldMap.lookup f = none ∧ r = none) ∨
      (∃ i x, c.fieldMap.lookup f = some i ∧ c.cols[i]? = some x ∧ r = some x) := by
  unfold ColFieldMap.GetByFieldName
  cases c.fieldMap.lookup f with
  | none => simp [eq_comm]
  | some i =>
    dsimp only
    cases hi : c.cols[i]? with
    | none => simp [hi]
    | some x =>
      dsimp only
      constructor
      · intro h
        cases h
        exact Or.inr ⟨i, x, rfl, hi, rfl⟩
      · rintro (⟨hl, _⟩ | ⟨j, y, hj, hy, hr⟩)
        · exact Option.noConfusion hl
        · cases hj
          rw [hi] at hy
          cases hy
          rw [hr]

/-- What an answer of `GetByColName` says about the index and the descriptor list. -/
theorem GetByColName_eq_ok (c : ColFieldMap) (name : String) (r : Option Col) :
    c.GetByColName name = .ok r ↔
      (c.colMap.lookup name = none ∧ r = none) ∨
      (∃ i x, c.colMap.lookup name = some i ∧ c.cols[i]? = some x ∧ r = some x) := by
  unfold ColFieldMap.GetByColName
  cases c.colMap.lookup name with
  | none => simp [eq_comm]
  | some i =>
    dsimp only
    cases hi : c.cols[i]? with
    | none => simp [hi]
    | some x =>
      dsimp only
      constructor
      · intro h
        cases h
        exact Or.inr ⟨i, x, rfl, hi, rfl⟩
      · rintro (⟨hl, _⟩ | ⟨j, y, hj, hy, hr⟩)
        · exact Option.noConfusion hl
        · cases hj
          rw [hi] at hy
          cases hy
          rw [hr]

/-- A field name is registered exactly when the field-name index holds it. -/
theorem Exists_eq_false_iff (c : ColFieldMap) (f : String) :
    c.Exists f = false ↔ c.fieldMap.lookup f = none := by
  unfold ColFieldMap.Exists
  cases c.fieldMap.lookup f <;> simp

/-- One more `Add` call, seen through `GetByFieldName`: the answer stays, and a field name
that had none gets the descriptor added. -/
theorem GetByFieldName_Add (c : ColFieldMap) (col : Col) (f : String) (r : Option Col)
    (hc : c.GetByFieldName f = .ok r) :
    (c.Add col).GetByFieldName f = .ok (r.or (if col.FieldName = f then some col else none)) := by
  rw [GetByFieldName_eq_ok] at hc
  by_cases hex : c.Exists col.FieldName = true
  · rw [Add_of_Exists c col hex, GetByFieldName_eq_ok]
    by_cases hf : col.FieldName = f
    · rcases hc with ⟨hl, _⟩ | ⟨i, x, hl, hi, hr⟩
      · rw [hf] at hex
        have := (Exists_eq_false_iff c f).mpr hl
        rw [this] at hex
        exact absurd hex (by simp)
      · exact Or.inr ⟨i, x, hl, hi, by rw [hr]; rfl⟩
    · rw [if_neg hf, Option.or_none]
      exact hc
  · have hex' : c.Exists col.FieldName = false := Bool.eq_false_iff.mpr hex
    have hnone : c.fieldMap.lookup col.FieldName = none := (Exists_eq_false_iff c _).mp hex'
    rw [GetByFieldName_eq_ok, Add_fieldMap c col hex', Add_cols c col hex', lookup_mapSet]
    by_cases hf : col.FieldName = f
    · rw [if_pos hf.symm, if_pos hf]
      rcases hc with ⟨_, hr⟩ | ⟨i, x, hl, _, _⟩
      · refine Or.inr ⟨c.cols.length, col, rfl, by simp, by rw [hr]; rfl⟩
      · rw [← hf, hnone] at hl
        exact Option.noConfusion hl
    · rw [if_neg (fun h => hf h.symm), if_neg hf, Option.or_none]
      rcases hc with ⟨hl, hr⟩ | ⟨i, x, hl, hi, hr⟩
      · exact Or.inl ⟨hl, hr⟩
      · exact Or.inr ⟨i, x, hl, getElem?_append_single_of_some c.cols col x i hi, hr⟩

/-- After any sequence of `Add` calls, `GetByFieldName` answers the first descriptor of the
sequence that carries the field name. -/
theorem GetByFieldName_addAll (adds : List Col) (f : String) :
    (addAll adds).GetByFieldName f = .ok (adds.find? (fun c => c.FieldName == f)) := by
  induction adds using List.reverseRecOn with
  | nil => rfl
  | append_singleton l col ih =>
    rw [addAll_append_single, GetByFieldName_Add _ col f _ ih, List.find?_append]
    by_cases hf : col.FieldName = f <;> simp [hf]

/-- After any sequence of `Add` calls, a field name is registered exactly when a descriptor of
the sequence carries it. -/
theorem Exists_addAll (adds : List Col) (f : String) :
    (addAll adds).Exists f = adds.any (fun d => d.FieldName == f) := by
  have h := (GetByFieldName_eq_ok _ _ _).mp (GetByFieldName_addAll adds f)
  rcases h with ⟨hl, hr⟩ | ⟨i, x, hl, _, hr⟩
  · rw [(Exists_eq_false_iff _ _).mpr hl]
    symm
    rw [List.any_eq_false]
    intro d hd
    exact List.find?_eq_none.mp hr d hd
  · have he : (addAll adds).Exists f = true := by
      unfold ColFieldMap.Exists
      rw [hl]
      rfl
    rw [he]
    symm
    rw [List.any_eq_true]
    have hp := List.find?_some (p := fun c : Col => c.FieldName == f) hr
    exact ⟨x, List.mem_of_find?_eq_some hr, hp⟩

/-- `Add` of a descriptor with a new field name and a column name indexes it under that
column name, at the end of the descriptor list. -/
theorem colMap_Add_new (c : ColFieldMap) (col : Col) (hex : c.Exists col.FieldName = false)
    (hcol : col.ColName ≠ "") :
    (c.Add col).colMap.lookup col.ColName = some c.cols.length ∧
    (c.Add col).cols[c.cols.length]? = some col := by
  rw [Add_colMap c col hex, if_pos hcol, lookup_mapSet, if_pos rfl, Add_cols c col hex]
  exact ⟨rfl, by simp⟩

/-- `Add` keeps what the column-name index answers for a column name, unless it registers a
descriptor under that same column name. -/
theorem colMap_Add_keep (c : ColFieldMap) (col x : Col) (name : String) (i : Nat)
    (hl : c.colMap.lookup name = some i) (hi : c.cols[i]? = some x)
    (h : col.ColName ≠ name ∨ c.Exists col.FieldName = true) :
    (c.Add col).colMap.lookup name = some i ∧ (c.Add col).cols[i]? = some x := by
  by_cases hex : c.Exists col.FieldName = true
  · rw [Add_of_Exists c col hex]
    exact ⟨hl, hi⟩
  · have hex' : c.Exists col.FieldName = false := Bool.eq_false_iff.mpr hex
    have hne : col.ColName ≠ name := h.resolve_right hex
    rw [Add_colMap c col hex', Add_cols c col hex']
    refine ⟨?_, getElem?_append_single_of_some c.cols col x i hi⟩
    by_cases hcol : col.ColName = ""
    · rw [if_neg (not_not.mpr hcol)]
      exact hl
    · rw [if_pos hcol, lookup_mapSet, if_neg (fun h' => hne h'.symm)]
      exact hl

/-- The column-name index keeps answering a registered descriptor while every later
descriptor with its column name is one whose field name is registered already. -/
theorem colMap_addAll_keep (pre post : List Col) (col : Col)
    (hnew : ∀ c ∈ pre, c.FieldName ≠ col.FieldName) (hcol : col.ColName ≠ "")
    (hlater : ∀ post1 c post2, post = post1 ++ c :: post2 → c.ColName = col.ColName →
      ∃ d ∈ pre ++ col :: post1, d.FieldName = c.FieldName) :
    (addAll (pre ++ col :: post)).colMap.lookup col.ColName = some (addAll pre).cols.length ∧
    (addAll (pre ++ col :: post)).cols[(addAll pre).cols.length]? = some col := by
  induction post using List.reverseRecOn with
  | nil =>
    have hex : (addAll pre).Exists col.FieldName = false := by
      rw [Exists_addAll, List.any_eq_false]
      intro c hc
      simpa using hnew c hc
    have h := colMap_Add_new (addAll pre) col hex hcol
    rw [← addAll_append_single] at h
    exact h
  | append_singleton l d ih =>
    have hl : ∀ post1 c post2, l = post1 ++ c :: post2 → c.ColName = col.ColName →
        ∃ e ∈ pre ++ col :: post1, e.FieldName = c.FieldName := by
      intro post1 c post2 hsplit hc
      exact hlater post1 c (post2 ++ [d]) (by rw [hsplit]; simp) hc
    obtain ⟨h1, h2⟩ := ih hl
    have happ : pre ++ col :: (l ++ [d]) = (pre ++ col :: l) ++ [d] := by simp
    rw [happ, addAll_append_single]
    apply colMap_Add_keep _ d col col.ColName _ h1 h2
    by_cases hd : d.ColName = col.ColName
    · right
      obtain ⟨e, he, hef⟩ := hlater l d [] rfl hd
      rw [Exists_addAll, List.any_eq_true]
      exact ⟨e, he, by simpa using hef⟩
    · exact Or.inl hd

/-- C14 as stated fails: after `Add` of a descriptor for field `Id` with column `id` and then
`Add` of a descriptor for field `Uid` with the same column `id`, both registered,
`GetByColName` of `id` returns the second descriptor, not the first. -/
theorem GetByColName_returns_later_descriptor :
    (addAll [⟨"id", "Id", [0]⟩, ⟨"id", "Uid", [1]⟩]).GetByColName "id"
      = .ok (some ⟨"id", "Uid", [1]⟩) ∧
    (addAll [⟨"id", "Id", [0]⟩, ⟨"id", "Uid", [1]⟩]).GetByFieldName "Id"
      = .ok (some ⟨"id", "Id", [0]⟩) ∧
    (addAll [⟨"id", "Id", [0]⟩, ⟨"id", "Uid", [1]⟩]).cols
      = [⟨"id", "Id", [0]⟩, ⟨"id", "Uid", [1]⟩] := by
  decide

/-- C14, amended: for every sequence of `Add` calls on a new `ColFieldMap` and every
descriptor registered by it (its field name is carried by no earlier descriptor of the
sequence, and its column name is non-empty), `GetByFieldName` of its field name returns that
descriptor, and so does `GetByColName` of its column name when every later descriptor of the
sequence with that column name has a field name that an earlier one carries (so that no
descriptor registered later has the same column name). -/
theorem GetBy_registered_descriptor (pre post : List Col) (col : Col)
    (hnew : ∀ c ∈ pre, c.FieldName ≠ col.FieldName) (hcol : col.ColName ≠ "") :
    (addAll (pre ++ col :: post)).GetByFieldName col.FieldName = .ok (some col) ∧
    ((∀ post1 c post2, post = post1 ++ c :: post2 → c.ColName = col.ColName →
        ∃ d ∈ pre ++ col :: post1, d.FieldName = c.FieldName) →
      (addAll (pre ++ col :: post)).GetByColName col.ColName = .ok (some col)) := by
  constructor
  · rw [GetByFieldName_addAll, List.find?_append]
    have hpre : pre.find? (fun c => c.FieldName == col.FieldName) = none := by
      rw [List.find?_eq_none]
      intro c hc
      simpa using hnew c hc
    rw [hpre]
    simp
  · intro hlater
    obtain ⟨h1, h2⟩ := colMap_addAll_keep pre post col hnew hcol hlater
    exact (GetByColName_eq_ok _ _ _).mpr (Or.inr ⟨_, col, h1, h2, rfl⟩)

/-- C14, amended, at the sequence `Id`/`id`, `Name`/`name`, then a second descriptor for field
`Id` with column `name`, which is not registered. -/
theorem GetBy_registered_descriptor_witness :
    (addAll [⟨"id", "Id", [0]⟩, ⟨"name", "Name", [1]⟩, ⟨"name", "Id", [2]⟩]).GetByFieldName
        "Name" = .ok (some ⟨"name", "Name", [1]⟩) ∧
    (addAll [⟨"id", "Id", [0]⟩, ⟨"name", "Name", [1]⟩, ⟨"name", "Id", [2]⟩]).GetByColName
        "name" = .ok (some ⟨"name", "Name", [1]⟩) :=
  have h := GetBy_registered_descriptor [⟨"id", "Id", [0]⟩] [⟨"name", "Id", [2]⟩]
    ⟨"name", "Name", [1]⟩ (by decide) (by decide)
  ⟨h.1, h.2 (by
    intro post1 c post2 hsplit _
    cases post1 with
    | nil =>
      simp only [List.nil_append, List.cons.injEq] at hsplit
      exact ⟨⟨"id", "Id", [0]⟩, by simp, by rw [← hsplit.1]⟩
    | cons a t =>
      simp only [List.cons_append, List.cons.injEq] at hsplit
      exact absurd hsplit.2 (by simp))⟩

/-- C15: `Add` of a descriptor whose field name is registered leaves the `ColFieldMap` as it
is (descriptor list, both indices, both name lists), whatever its column name; and after any
sequence of `Add` calls on a new `ColFieldMap`, `GetByFieldName` of a field name returns the
first descriptor of the sequence that carries it. -/
theorem Add_registered_field_is_noop (c : ColFieldMap) (col : Col) (adds : List Col)
    (f : String) :
    (c.Exists col.FieldName = true → c.Add col = c) ∧
    (addAll adds).GetByFieldName f = .ok (adds.find? (fun d => d.FieldName == f)) :=
  ⟨Add_of_Exists c col, GetByFieldName_addAll adds f⟩

/-- C15, at a map that holds field `Id` with column `id`, and a second descriptor for field
`Id` with another column name. -/
theorem Add_registered_field_is_noop_witness :
    (addAll [⟨"id", "Id", [0]⟩]).Exists "Id" = true ∧
    (addAll [⟨"id", "Id", [0]⟩]).Add ⟨"uid", "Id", [1]⟩ = addAll [⟨"id", "Id", [0]⟩] ∧
    (addAll [⟨"id", "Id", [0]⟩, ⟨"uid", "Id", [1]⟩]).GetByFieldName "Id"
      = .ok (some ⟨"id", "Id", [0]⟩) :=
  have h := Add_registered_field_is_noop (addAll [⟨"id", "Id", [0]⟩]) ⟨"uid", "Id", [1]⟩
    [⟨"id", "Id", [0]⟩, ⟨"uid", "Id", [1]⟩] "Id"
  ⟨by decide, h.1 (by decide), h.2.trans (by decide)⟩

/-! ### The sort clause -/

/-- A single sort pair with direction 1 or -1 compiles to the column followed by ` ASC` or
` DESC`. -/
theorem orderByToSQL_single (q : Query) (colName : String) (horder : q.orderBy = []) :
    (q.Sort colName 1).orderByToSQL = colName ++ " ASC" ∧
    (q.Sort colName (-1)).orderByToSQL = colName ++ " DESC" := by
  constructor <;>
    (apply String.ext
     simp [Query.orderByToSQL, Query.Sort, horder, orderByTerm, TrimRight, String.data_append,
       List.dropWhile_cons])

/-- C16: two sort-by calls compile to a sort clause whose terms are glued by ` AND` with
neither comma nor blank after it: `Sort("id", 1).Sort("name", -1)` gives
` ORDER BY id ASC ANDname DESC` in the read-all statement, which `All` sends to the store.
A single call does compile to ` ORDER BY id ASC`. -/
theorem orderByToSQL_glues_terms_with_AND :
    (((Table "users").Sort "id" 1).Sort "name" (-1)).toSQL flatHelpers
        (usersDB DRIVER_MYSQL [] false false) (some usersStruct) ACTION_SELECT_ALL []
      = .ok ("SELECT * FROM users ORDER BY id ASC ANDname DESC", []) ∧
    ((((Table "users").Sort "id" 1).Sort "name" (-1)).All flatHelpers idleStore
        ⟨usersDB DRIVER_MYSQL [] false false, []⟩ (.ptrSlice (.ptr (.struct "User")) [])).world.sent
      = [.Prepare "SELECT * FROM users ORDER BY id ASC ANDname DESC",
         .Query "SELECT * FROM users ORDER BY id ASC ANDname DESC" []] ∧
    ((Table "users").Sort "id" 1).toSQL flatHelpers
        (usersDB DRIVER_MYSQL [] false false) (some usersStruct) ACTION_SELECT_ALL []
      = .ok ("SELECT * FROM users ORDER BY id ASC", []) := by
  decide

/-! ### The generic filter -/

/-- A text that starts with a non-empty text is not empty. -/
theorem append_ne_empty (s t : String) (h : s ≠ "") : s ++ t ≠ "" := by
  intro he
  apply h
  have hd := congrArg String.data he
  rw [String.data_append] at hd
  exact String.ext (List.append_eq_nil.mp hd).1

/-- Joining texts: one more text at the end. -/
theorem join_append_single (l : List String) (x : String) :
    String.join (l ++ [x]) = String.join l ++ x := by
  simp [String.join, List.foldl_append]

/-- The accumulator of `String.intercalate` is the start of its result. -/
theorem intercalate_go_start (acc sep : String) (l : List String) :
    ∃ t, String.intercalate.go acc sep l = acc ++ t := by
  induction l generalizing acc with
  | nil => exact ⟨"", by simp [String.intercalate.go]⟩
  | cons a as ih =>
    obtain ⟨t, ht⟩ := ih (acc ++ sep ++ a)
    exact ⟨sep ++ a ++ t, by rw [String.intercalate.go, ht]; simp [String.append_assoc]⟩

/-- The filter-map terms of a non-empty filter-map are not empty. -/
theorem filterMapTerms_ne_empty (p : Map) (m : M) : filterMapTerms (p :: m) ≠ "" := by
  unfold filterMapTerms Join
  rw [List.map_cons]
  show String.intercalate.go (p.Key ++ "=?") " AND " _ ≠ ""
  obtain ⟨t, ht⟩ := intercalate_go_start (p.Key ++ "=?") " AND "
    (m.map (fun p => p.Key ++ "=?"))
  rw [ht, String.append_assoc]
  intro he
  have hd := congrArg String.data he
  simp [String.data_append] at hd

/-- The fragments of a sequence of calls extended by further calls. -/
theorem fragmentsOf_append (l r : List FilterCall) :
    fragmentsOf (l ++ r) = fragmentsOf l ++ fragmentsOf r := by
  induction l with
  | nil => rfl
  | cons c cs ih => cases c <;> simp [fragmentsOf, ih]

/-- The fragment args of a sequence of calls extended by further calls. -/
theorem fragmentArgsOf_append (l r : List FilterCall) :
    fragmentArgsOf (l ++ r) = fragmentArgsOf l ++ fragmentArgsOf r := by
  induction l with
  | nil => rfl
  | cons c cs ih => cases c <;> simp [fragmentArgsOf, ih]

/-- The filter-map of a sequence of calls extended by further calls. -/
theorem filterMapOf_append (l r : List FilterCall) :
    filterMapOf (l ++ r) = filterMapOf l ++ filterMapOf r := by
  induction l with
  | nil => rfl
  | cons c cs ih => cases c <;> simp [filterMapOf, ih]

/-- The text of the fragments with one more fragment at the end. -/
theorem fragmentsText_append_single (frags : List (String × String)) (conn str : String) :
    fragmentsText (frags ++ [(conn, str)]) =
      if frags = [] then str else fragmentsText frags ++ conn ++ str := by
  cases frags with
  | nil => simp [fragmentsText, String.join]
  | cons f rest =>
    obtain ⟨c, s⟩ := f
    simp only [List.cons_append, fragmentsText, List.map_append, List.map_cons, List.map_nil,
      join_append_single, reduceCtorEq, if_false]
    simp only [String.append_assoc]

/-- The text of non-empty fragments is empty only when there is no fragment. -/
theorem fragmentsText_eq_empty_iff (frags : List (String × String))
    (hne : ∀ cf ∈ frags, cf.2 ≠ "") : fragmentsText frags = "" ↔ frags = [] := by
  cases frags with
  | nil => simp [fragmentsText]
  | cons f rest =>
    obtain ⟨c, s⟩ := f
    have hs : s ≠ "" := hne (c, s) (List.mem_cons_self _ _)
    simp only [fragmentsText, reduceCtorEq, iff_false]
    exact append_ne_empty s _ hs

/-- What the filter builder leaves in the spec after a sequence of calls with non-empty
fragments: the text of the fragments, their args, and the filter-map. -/
theorem filters_fields (name : String) (calls : List FilterCall)
    (hne : ∀ cf ∈ fragmentsOf calls, cf.2 ≠ "") :
    ((Table name).filters calls).where_ = fragmentsText (fragmentsOf calls) ∧
    ((Table name).filters calls).whereArgs = fragmentArgsOf calls ∧
    ((Table name).filters calls).whereM = filterMapOf calls ∧
    ((Table name).filters calls).primaryArgs = [] := by
  induction calls using List.reverseRecOn with
  | nil => exact ⟨rfl, rfl, rfl, rfl⟩
  | append_singleton l c ih =>
    have hl : ∀ cf ∈ fragmentsOf l, cf.2 ≠ "" := by
      intro cf hcf
      apply hne cf
      rw [fragmentsOf_append]
      exact List.mem_append_left _ hcf
    obtain ⟨h1, h2, h3, h4⟩ := ih hl
    have hstep : (Table name).filters (l ++ [c]) = ((Table name).filters l).filter c := by
      simp [Query.filters, List.foldl_append]
    have hempty : ((Table name).filters l).where_ = "" ↔ fragmentsOf l = [] := by
      rw [h1]
      exact fragmentsText_eq_empty_iff _ hl
    rw [hstep, fragmentsOf_append, fragmentArgsOf_append, filterMapOf_append]
    cases c with
    | Where str args =>
      refine ⟨?_, ?_, ?_, h4⟩
      · show (if ((Table name).filters l).where_ = "" then str
          else ((Table name).filters l).where_ ++ " AND " ++ str) = _
        rw [fragmentsOf, fragmentsOf, fragmentsText_append_single, ← h1]
        by_cases he : ((Table name).filters l).where_ = ""
        · rw [if_pos he, if_pos (hempty.mp he)]
        · rw [if_neg he, if_neg (fun h => he (hempty.mpr h))]
      · show ((Table name).filters l).whereArgs ++ args = _
        rw [h2]
        simp [fragmentArgsOf]
      · show ((Table name).filters l).whereM = _
        rw [h3]
        simp [filterMapOf]
    | And str args =>
      refine ⟨?_, ?_, ?_, h4⟩
      · show (if ((Table name).filters l).where_ = "" then str
          else ((Table name).filters l).where_ ++ " AND " ++ str) = _
        rw [fragmentsOf, fragmentsOf, fragmentsText_append_single, ← h1]
        by_cases he : ((Table name).filters l).where_ = ""
        · rw [if_pos he, if_pos (hempty.mp he)]
        · rw [if_neg he, if_neg (fun h => he (hempty.mpr h))]
      · show ((Table name).filters l).whereArgs ++ args = _
        rw [h2]
        simp [fragmentArgsOf]
      · show ((Table name).filters l).whereM = _
        rw [h3]
        simp [filterMapOf]
    | Or str args =>
      refine ⟨?_, ?_, ?_, h4⟩
      · show (if ((Table name).filters l).where_ = "" then str
          else ((Table name).filters l).where_ ++ " OR " ++ str) = _
        rw [fragmentsOf, fragmentsOf, fragmentsText_append_single, ← h1]
        by_cases he : ((Table name).filters l).where_ = ""
        · rw [if_pos he, if_pos (hempty.mp he)]
        · rw [if_neg he, if_neg (fun h => he (hempty.mpr h))]
      · show ((Table name).filters l).whereArgs ++ args = _
        rw [h2]
        simp [fragmentArgsOf]
      · show ((Table name).filters l).whereM = _
        rw [h3]
        simp [filterMapOf]
    | WhereM m =>
      refine ⟨?_, ?_, ?_, h4⟩
      · show ((Table name).filters l).where_ = _
        rw [h1]
        simp [fragmentsOf]
      · show ((Table name).filters l).whereArgs = _
        rw [h2]
        simp [fragmentArgsOf]
      · show ((Table name).filters l).whereM ++ m = _
        rw [h3]
        simp [filterMapOf]

/-- The merge of generic filter and filter-map, told from the fields of the spec. -/
theorem whereToSQLDo_eq (q : Query) :
    q.whereToSQLDo =
      match q.whereM with
      | [] => (if q.where_ ≠ "" then " WHERE " ++ q.where_ else q.where_, q.whereArgs)
      | p :: m =>
        (if (if q.where_ = "" then filterMapTerms (p :: m)
              else q.where_ ++ " AND " ++ filterMapTerms (p :: m)) ≠ ""
         then " WHERE " ++ (if q.where_ = "" then filterMapTerms (p :: m)
              else q.where_ ++ " AND " ++ filterMapTerms (p :: m))
         else (if q.where_ = "" then filterMapTerms (p :: m)
              else q.where_ ++ " AND " ++ filterMapTerms (p :: m)),
         q.whereArgs ++ (p :: m).map (fun p => p.Value)) := by
  unfold Query.whereToSQLDo
  cases hm : q.whereM with
  | nil => simp
  | cons p m =>
    simp [M.toKeysValues, arr_to_sql_add, filterMapTerms, Function.comp_def]

/-- C17: a spec built on a table by `Where`, `And`, `Or` calls with non-empty fragments and by
`WhereM` calls, without primary-key filter, compiles to the where clause ` WHERE `, the
fragments in call order, each joined to the previous one by ` AND ` (`Where`, `And`) or
` OR ` (`Or`), then the filter-map terms `key=?` of all `WhereM` calls joined by ` AND `,
with ` AND ` between fragments and terms when both are there; the args are the args of the
fragments in call order followed by the filter-map values in order; without any call the
where clause is empty and there are no args. -/
theorem whereToSQL_generic_filter (name : String) (calls : List FilterCall)
    (tableStruct : Option TableStruct)
    (hne : ∀ cf ∈ fragmentsOf calls, cf.2 ≠ "") :
    ((Table name).filters calls).whereToSQL tableStruct =
      .ok (whereClause calls,
        fragmentArgsOf calls ++ (filterMapOf calls).map (fun p => p.Value)) := by
  obtain ⟨h1, h2, h3, h4⟩ := filters_fields name calls hne
  have hempty := fragmentsText_eq_empty_iff _ hne
  unfold Query.whereToSQL
  rw [h4, if_neg (by simp), whereToSQLDo_eq, h1, h2, h3]
  unfold whereClause
  cases hf : fragmentsOf calls with
  | nil =>
    cases hm : filterMapOf calls with
    | nil => simp [fragmentsText]
    | cons p m =>
      have hz : fragmentsText ([] : List (String × String)) = "" := rfl
      simp only [hz, if_true, if_pos (filterMapTerms_ne_empty p m)]
  | cons f fs =>
    have hnz : fragmentsText (f :: fs) ≠ "" := by
      rw [← hf]
      intro h
      have := hempty.mp h
      rw [hf] at this
      exact List.noConfusion this
    cases hm : filterMapOf calls with
    | nil => simp [hnz]
    | cons p m =>
      have hnz2 : fragmentsText (f :: fs) ++ (" AND " ++ filterMapTerms (p :: m)) ≠ "" :=
        append_ne_empty _ _ hnz
      simp only [if_neg hnz, String.append_assoc, if_pos hnz2]

/-- C17, at a spec built by `Where`, `WhereM`, `Or`, `WhereM`, `And`, and at the spec without
any filter call. -/
theorem whereToSQL_generic_filter_witness :
    ((Table "users").filters [.Where "age>?" [.int 3], .WhereM [⟨"name", .str "a"⟩],
        .Or "id=?" [.int 7], .WhereM [⟨"note", .str "n"⟩], .And "id<?" [.int 9]]).whereToSQL none
      = .ok (" WHERE age>? OR id=? AND id<? AND name=? AND note=?",
          [.int 3, .int 7, .int 9, .str "a", .str "n"]) ∧
    ((Table "users").filters []).whereToSQL none = .ok ("", []) :=
  ⟨(whereToSQL_generic_filter "users" [.Where "age>?" [.int 3], .WhereM [⟨"name", .str "a"⟩],
        .Or "id=?" [.int 7], .WhereM [⟨"note", .str "n"⟩], .And "id<?" [.int 9]] none
      (by decide)).trans (by decide),
   (whereToSQL_generic_filter "users" [] none (by decide)).trans (by decide)⟩

/-! ### The aggregate reads -/

/-- With no schema, the read-one statement of a spec with an aggregate as its selected field
compiles to the aggregate statement when the spec carries no primary-key value, and
dereferences the nil schema when it carries one. -/
theorem toSQL_aggregate (h : Helpers) (db : DB) (q : Query) (aggregate : String) :
    (q.Fields [aggregate]).toSQL h db none ACTION_SELECT_ONE [] =
      if q.primaryArgs = [] then .ok (aggregateStatement q aggregate, q.whereToSQLDo.2)
      else .panic nilDeref := by
  have hw : (q.Fields [aggregate]).whereToSQL none = q.whereToSQL none := rfl
  have ho : orderByClause (q.Fields [aggregate]) = orderByClause q := rfl
  unfold Query.toSQL
  rw [fields_eq_fieldsClause, orderBy_eq_orderByClause, hw, ho]
  unfold Query.whereToSQL
  cases hp : q.primaryArgs with
  | nil =>
    simp [Res.bind, aggregateStatement, fieldsClause, Query.Fields, Join, String.intercalate,
      String.intercalate.go]
  | cons a as => simp [Res.bind]

/-- The body shared by `Sum`, `Max` and `Min`, on a spec without primary-key value: the
aggregate statement is sent and the operation returns. -/
theorem scanNullInt64_of_no_primary_key (h : Helpers) (st : Store) (s : World) (q : Query)
    (field : String) (hpk : q.primaryArgs = []) :
    ∃ n err, q.scanNullInt64 h st s field =
      .returned (s.send (.QueryRow (aggregateStatement q field) q.whereToSQLDo.2))
        (q.Fields [field], n, err) := by
  unfold Query.scanNullInt64
  dsimp only
  rw [toSQL_aggregate, if_pos hpk]
  dsimp only
  cases he : (st.QueryRowNullInt64 s.sent (aggregateStatement q field) q.whereToSQLDo.2).2 with
  | none =>
    exact ⟨(st.QueryRowNullInt64 s.sent (aggregateStatement q field) q.whereToSQLDo.2).1, none,
      by simp [he]⟩
  | some e => exact ⟨0, some e, by simp [he]⟩

/-- The body shared by `Sum`, `Max` and `Min`, on a spec with a primary-key value: the nil
schema is dereferenced and the process ends, with nothing sent. -/
theorem scanNullInt64_of_primary_key (h : Helpers) (st : Store) (s : World) (q : Query)
    (field : String) (hpk : q.primaryArgs ≠ []) :
    q.scanNullInt64 h st s field = .exited s := by
  unfold Query.scanNullInt64
  dsimp only
  rw [toSQL_aggregate, if_neg hpk]
  rfl

/-- C18: `Count` off the cache path, `Sum`, `Max` and `Min` compile their statement with no
schema.  On a spec without primary-key value the compilation yields `SELECT`, the aggregate,
` FROM `, the table, the where clause, the sort clause and ` LIMIT 1` with the args of the
filter, and each operation sends that statement and returns; on a spec with at least one
primary-key value the nil schema is dereferenced and each operation ends the process. -/
theorem aggregates_compile_without_schema (h : Helpers) (st : Store) (s : World) (q : Query)
    (colName : String)
    (hoff : s.db.tableEnableCache = false ∨
      ∃ ts, s.db.tableStruct.lookup q.table = some ts ∧
        (ts.EnableCache = false ∨ q.where_ ≠ "" ∨ q.whereM ≠ [])) :
    (q.primaryArgs = [] →
      (∀ aggregate, (q.Fields [aggregate]).toSQL h s.db none ACTION_SELECT_ONE [] =
        .ok (aggregateStatement q aggregate, q.whereToSQLDo.2)) ∧
      (∃ n err, q.Count h st s =
        .returned (s.send (.QueryRow (aggregateStatement q "COUNT(*)") q.whereToSQLDo.2))
          (q.Fields ["COUNT(*)"], n, err)) ∧
      (∃ n err, q.Sum h st s colName =
        .returned (s.send (.QueryRow (aggregateStatement q ("SUM(" ++ colName ++ ")"))
          q.whereToSQLDo.2)) (q.Fields ["SUM(" ++ colName ++ ")"], n, err)) ∧
      (∃ n err, q.Max h st s colName =
        .returned (s.send (.QueryRow (aggregateStatement q ("MAX(" ++ colName ++ ")"))
          q.whereToSQLDo.2)) (q.Fields ["MAX(" ++ colName ++ ")"], n, err)) ∧
      (∃ n err, q.Min h st s colName =
        .returned (s.send (.QueryRow (aggregateStatement q ("MIN(" ++ colName ++ ")"))
          q.whereToSQLDo.2)) (q.Fields ["MIN(" ++ colName ++ ")"], n, err))) ∧
    (q.primaryArgs ≠ [] →
      (∀ aggregate, (q.Fields [aggregate]).toSQL h s.db none ACTION_SELECT_ONE [] =
        .panic nilDeref) ∧
      q.Count h st s = .exited s ∧ q.Sum h st s colName = .exited s ∧
      q.Max h st s colName = .exited s ∧ q.Min h st s colName = .exited s) := by
  have hcache : (if s.db.tableEnableCache = true then
        match q.getTableStruct s with
        | none => Res.panic nilDeref
        | some tableStruct =>
          Res.ok (tableStruct.EnableCache && q.where_ == "" && q.whereM.length == 0)
      else Res.ok false) = Res.ok false := by
    rcases hoff with hoff | ⟨ts, hreg, hts⟩
    · simp [hoff]
    · by_cases hall : s.db.tableEnableCache = true
      · rw [if_pos hall]
        unfold Query.getTableStruct
        rw [hreg]
        rcases hts with hts | hts | hts
        · simp [hts]
        · simp [hts]
        · have : q.whereM.length ≠ 0 := fun hz => hts (List.length_eq_zero.mp hz)
          simp [this]
      · rw [if_neg hall]
  constructor
  · intro hpk
    refine ⟨fun aggregate => by rw [toSQL_aggregate, if_pos hpk], ?_,
      scanNullInt64_of_no_primary_key h st s q _ hpk,
      scanNullInt64_of_no_primary_key h st s q _ hpk,
      scanNullInt64_of_no_primary_key h st s q _ hpk⟩
    unfold Query.Count
    simp only [hcache]
    rw [toSQL_aggregate, if_pos hpk]
    exact ⟨_, _, rfl⟩
  · intro hpk
    refine ⟨fun aggregate => by rw [toSQL_aggregate, if_neg hpk], ?_,
      scanNullInt64_of_primary_key h st s q _ hpk,
      scanNullInt64_of_primary_key h st s q _ hpk,
      scanNullInt64_of_primary_key h st s q _ hpk⟩
    unfold Query.Count
    simp only [hcache]
    rw [toSQL_aggregate, if_neg hpk]
    rfl

/-- C18, on a handle without cache: the count statement of a spec with a generic filter, and
the sum over a spec with a primary-key value, which ends the process. -/
theorem aggregates_compile_without_schema_witness :
    (((Table "users").Where "age>?" [.int 3]).Fields ["COUNT(*)"]).toSQL flatHelpers
        (usersDB DRIVER_MYSQL [] false false) none ACTION_SELECT_ONE []
      = .ok ("SELECT COUNT(*) FROM users WHERE age>? LIMIT 1", [.int 3]) ∧
    ((Table "users").WherePK [.int 1]).Sum flatHelpers idleStore
        ⟨usersDB DRIVER_MYSQL [] false false, []⟩ "id"
      = .exited ⟨usersDB DRIVER_MYSQL [] false false, []⟩ :=
  ⟨((aggregates_compile_without_schema flatHelpers idleStore
        ⟨usersDB DRIVER_MYSQL [] false false, []⟩ ((Table "users").Where "age>?" [.int 3]) "id"
        (Or.inl (by decide))).1 (by decide)).1 "COUNT(*)" |>.trans (by decide),
   ((aggregates_compile_without_schema flatHelpers idleStore
        ⟨usersDB DRIVER_MYSQL [] false false, []⟩ ((Table "users").WherePK [.int 1]) "id"
        (Or.inl (by decide))).2 (by decide)).2.2.1⟩

/-! ### The cache after a write -/

/-- Looking up or deriving the schema of a table leaves the caches as they are. -/
theorem getTableStructFor_tableData (h : Helpers) (st : Store) (s : World) (q : Query)
    (arrType : RType) :
    (q.getTableStructFor h st s arrType).world.db.tableData = s.db.tableData := by
  unfold Query.getTableStructFor
  dsimp only
  cases s.db.tableStruct.lookup q.table with
  | some ts => rfl
  | none =>
    dsimp only
    unfold NewTableStruct
    dsimp only
    cases h.struct_fields_range_do NewColFieldMap _ [] with
    | panic p => rfl
    | ok colFieldMap =>
      dsimp only
      cases h.get_table_info st s.sent s.db q.table with
      | panic p => rfl
      | ok r =>
        obtain ⟨calls, PrimaryKey, AutoIncrement⟩ := r
        dsimp only
        cases primaryKeyPos colFieldMap PrimaryKey <;> rfl

/-- `InsertIgnore` never writes to a cache: it ends in a world with the caches it started
with, and when it returns, the caller's value is as it was and the insert id is 0. -/
theorem InsertIgnore_leaves_cache (h : Helpers) (st : Store) (s : World) (q : Query)
    (ifc : Ifc) :
    (q.InsertIgnore h st s ifc).world.db.tableData = s.db.tableData ∧
    (∀ s1 a, q.InsertIgnore h st s ifc = .returned s1 a → a.1 = ifc ∧ a.2.1 = 0) := by
  unfold Query.InsertIgnore Query.insert_replace
  by_cases hro : s.db.readOnly = true
  · simp [hro, Outcome.world]
  · simp only [hro]
    have key : ∀ r : Record,
        (match q.getTableStructFor h st s ifc.TypeOf with
          | .exit s1 => (Outcome.exited s1 : Outcome (Ifc × Int × Option Err))
          | .panic s1 p => dbxErrorDefer s1 p (fun e => (ifc, 0, some e))
          | .ok s1 tableStruct =>
            match q.toSQL h s1.db (some tableStruct) ACTION_INSERT_IGNORE [r] with
            | .panic p => dbxErrorDefer s1 p (fun e => (ifc, 0, some e))
            | .ok (sql1, args) =>
              match DB.Exec st s1 sql1 args with
              | .exit s2 => .exited s2
              | .panic s2 p => dbxErrorDefer s2 p (fun e => (ifc, 0, some e))
              | .ok s2 (_, err) => .returned s2 (ifc, 0, err)).world.db.tableData
          = s.db.tableData ∧
        (∀ s1 a, (match q.getTableStructFor h st s ifc.TypeOf with
          | .exit s1 => (Outcome.exited s1 : Outcome (Ifc × Int × Option Err))
          | .panic s1 p => dbxErrorDefer s1 p (fun e => (ifc, 0, some e))
          | .ok s1 tableStruct =>
            match q.toSQL h s1.db (some tableStruct) ACTION_INSERT_IGNORE [r] with
            | .panic p => dbxErrorDefer s1 p (fun e => (ifc, 0, some e))
            | .ok (sql1, args) =>
              match DB.Exec st s1 sql1 args with
              | .exit s2 => .exited s2
              | .panic s2 p => dbxErrorDefer s2 p (fun e => (ifc, 0, some e))
              | .ok s2 (_, err) => .returned s2 (ifc, 0, err)) = .returned s1 a →
          a.1 = ifc ∧ a.2.1 = 0) := by
      intro r
      have hg := getTableStructFor_tableData h st s q ifc.TypeOf
      cases hgs : q.getTableStructFor h st s ifc.TypeOf with
      | exit s1 =>
        rw [hgs] at hg
        exact ⟨hg, fun _ _ hh => Outcome.noConfusion hh⟩
      | panic s1 p =>
        rw [hgs] at hg
        cases p with
        | dbx msg =>
          refine ⟨hg, fun _ _ hh => ?_⟩
          simp only [dbxErrorDefer, Outcome.returned.injEq] at hh
          rw [← hh.2]
          exact ⟨rfl, rfl⟩
        | runtime msg => exact ⟨hg, fun _ _ hh => Outcome.noConfusion hh⟩
      | ok s1 tableStruct =>
        rw [hgs] at hg
        dsimp only
        cases q.toSQL h s1.db (some tableStruct) ACTION_INSERT_IGNORE [r] with
        | panic p =>
          cases p with
          | dbx msg =>
            refine ⟨hg, fun _ _ hh => ?_⟩
            simp only [dbxErrorDefer, Outcome.returned.injEq] at hh
            rw [← hh.2]
            exact ⟨rfl, rfl⟩
          | runtime msg => exact ⟨hg, fun _ _ hh => Outcome.noConfusion hh⟩
        | ok sa =>
          obtain ⟨sql1, args⟩ := sa
          dsimp only
          have hw := Exec_world st s1 sql1 args
          cases hE : DB.Exec st s1 sql1 args with
          | exit s2 =>
            rw [hE] at hw
            simp only [Step.world] at hw
            refine ⟨?_, fun _ _ hh => Outcome.noConfusion hh⟩
            simp only [Outcome.world, hw, World.send]
            exact hg
          | panic s2 p =>
            rw [hE] at hw
            simp only [Step.world] at hw
            cases p with
            | dbx msg =>
              refine ⟨?_, fun _ _ hh => ?_⟩
              · simp only [dbxErrorDefer, Outcome.world, hw, World.send]
                exact hg
              · simp only [dbxErrorDefer, Outcome.returned.injEq] at hh
                rw [← hh.2]
                exact ⟨rfl, rfl⟩
            | runtime msg =>
              refine ⟨?_, fun _ _ hh => Outcome.noConfusion hh⟩
              simp only [dbxErrorDefer, Outcome.world, hw, World.send]
              exact hg
          | ok s2 ne =>
            rw [hE] at hw
            simp only [Step.world] at hw
            obtain ⟨n, err⟩ := ne
            refine ⟨?_, fun _ _ hh => ?_⟩
            · simp only [Outcome.world, hw, World.send]
              exact hg
            · simp only [Outcome.returned.injEq] at hh
              rw [← hh.2]
              exact ⟨rfl, rfl⟩
    cases ifc with
    | other kind =>
      refine ⟨rfl, fun _ _ hh => ?_⟩
      simp only [dbxErrorDefer, Bool.false_eq_true, if_false, Outcome.returned.injEq] at hh
      rw [← hh.2]
      exact ⟨rfl, rfl⟩
    | ptrOther kind =>
      refine ⟨rfl, fun _ _ hh => ?_⟩
      simp only [dbxErrorDefer, Bool.false_eq_true, if_false, Outcome.returned.injEq] at hh
      rw [← hh.2]
      exact ⟨rfl, rfl⟩
    | ptr r => simpa using key r
    | val r => simpa using key r

/-- C12 as stated fails: on the cache-enabled table `tags` with no cache entry, two
`InsertIgnore` calls with the record of primary key `a`, the store accepting the first and
ignoring the second, send the insert-or-ignore statement twice and leave the cache without
any entry under the record's composite key `a`. -/
theorem InsertIgnore_twice_no_cache_entry :
    affected (ignoringStore.Exec []
      "INSERT IGNORE INTO tags (name,note) VALUES (?,?)" [.str "a", .str "z"]) = 1 ∧
    affected (ignoringStore.Exec
      [.Exec "INSERT IGNORE INTO tags (name,note) VALUES (?,?)" [.str "a", .str "z"]]
      "INSERT IGNORE INTO tags (name,note) VALUES (?,?)" [.str "a", .str "z"]) = 0 ∧
    (Table "tags").InsertIgnore flatHelpers ignoringStore
        ((Table "tags").InsertIgnore flatHelpers ignoringStore ⟨tagsDB [], []⟩
          (.ptr (tagRecord "a" "z"))).world (.ptr (tagRecord "a" "z"))
      = .returned
          ⟨tagsDB [],
            [.Exec "INSERT IGNORE INTO tags (name,note) VALUES (?,?)" [.str "a", .str "z"],
             .Exec "INSERT IGNORE INTO tags (name,note) VALUES (?,?)" [.str "a", .str "z"]]⟩
          (.ptr (tagRecord "a" "z"), 0, none) ∧
    flatHelpers.get_pk_key tagsStruct (tagRecord "a" "z") = .ok "a" ∧
    Cache.Load [] "a" = none := by
  decide

/-- C12, amended: `InsertIgnore` called twice leaves every cache exactly as it was before the
first call (so a table's cache without entry under the record's composite key stays without
one), and each call that returns leaves the caller's record unmodified and answers the
insert id 0. -/
theorem InsertIgnore_twice_leaves_cache (h : Helpers) (st : Store) (s : World) (q : Query)
    (ifc : Ifc) :
    (q.InsertIgnore h st s ifc).world.db.tableData = s.db.tableData ∧
    (q.InsertIgnore h st (q.InsertIgnore h st s ifc).world ifc).world.db.tableData
      = s.db.tableData ∧
    (∀ s1 a, q.InsertIgnore h st s ifc = .returned s1 a → a.1 = ifc ∧ a.2.1 = 0) ∧
    (∀ s2 a, q.InsertIgnore h st (q.InsertIgnore h st s ifc).world ifc = .returned s2 a →
      a.1 = ifc ∧ a.2.1 = 0) :=
  ⟨(InsertIgnore_leaves_cache h st s q ifc).1,
   (InsertIgnore_leaves_cache h st _ q ifc).1.trans (InsertIgnore_leaves_cache h st s q ifc).1,
   (InsertIgnore_leaves_cache h st s q ifc).2,
   (InsertIgnore_leaves_cache h st _ q ifc).2⟩

/-- C11: `Insert`, `Replace` and `Update` write to the cache although the store reports an
error for the statement.  On the cache-enabled table `users`, with a store that rejects
every statement: `Insert` overwrites the id of the caller's record with 0 and stores the
record under the key `0`; `Replace` stores the record under its key; `Update` replaces the
cache entry of the record's key. -/
theorem writes_reach_cache_after_store_error :
    (Table "users").Insert flatHelpers rejectingStore
        ⟨usersDB DRIVER_MYSQL [("users", [("1", userRecord 1 "z")])] true false, []⟩
        (.ptr (userRecord 5 "b"))
      = .returned
          ⟨usersDB DRIVER_MYSQL
              [("users", [("1", userRecord 1 "z"), ("0", userRecord 0 "b")])] true false,
            [.Exec "INSERT INTO users (name) VALUES (?)" [.str "b"]]⟩
          (.ptr (userRecord 0 "b"), 0, some (.other "Error 2006: MySQL server has gone away")) ∧
    (Table "users").Replace flatHelpers rejectingStore
        ⟨usersDB DRIVER_MYSQL [("users", [("1", userRecord 1 "z")])] true false, []⟩
        (.ptr (userRecord 2 "c"))
      = .returned
          ⟨usersDB DRIVER_MYSQL
              [("users", [("1", userRecord 1 "z"), ("2", userRecord 2 "c")])] true false,
            [.Exec "REPLACE INTO users (id,name) VALUES (?,?)" [.int64 2, .str "c"]]⟩
          (.ptr (userRecord 2 "c"), 0, some (.other "Error 2006: MySQL server has gone away")) ∧
    (Table "users").Update flatHelpers rejectingStore
        ⟨usersDB DRIVER_MYSQL [("users", [("1", userRecord 1 "z")])] true false, []⟩
        (.ptr (userRecord 1 "b"))
      = .returned
          ⟨usersDB DRIVER_MYSQL [("users", [("1", userRecord 1 "b")])] true false,
            [.Exec "UPDATE users SET name=? WHERE id=? LIMIT 1" [.str "b", .int64 1]]⟩
          (.ptr (userRecord 1 "b"), 0, some (.other "Error 2006: MySQL server has gone away")) := by
  decide

/-- C13: `Delete` with an empty filter reloads the cache from the store before the delete
statement is executed.  On the cache-enabled table `users` with two rows, the store
succeeding: after `Delete` the cache still holds the two rows and `Count` answers 2 from it,
while the store holds no row and answers 0. -/
theorem Delete_all_leaves_cache_of_deleted_rows :
    (Table "users").Delete flatHelpers twoUsersStore
        ⟨usersDB DRIVER_MYSQL [("users", [("1", userRecord 1 "a"), ("2", userRecord 2 "b")])]
          true false, []⟩
      = .returned
          ⟨usersDB DRIVER_MYSQL [("users", [("1", userRecord 1 "a"), ("2", userRecord 2 "b")])]
            true false,
            [.Prepare "SELECT * FROM users", .Query "SELECT * FROM users" [],
             .Exec "DELETE FROM users" []]⟩
          (2, none) ∧
    (Table "users").Count flatHelpers twoUsersStore
        ⟨usersDB DRIVER_MYSQL [("users", [("1", userRecord 1 "a"), ("2", userRecord 2 "b")])]
          true false,
          [.Prepare "SELECT * FROM users", .Query "SELECT * FROM users" [],
           .Exec "DELETE FROM users" []]⟩
      = .returned
          ⟨usersDB DRIVER_MYSQL [("users", [("1", userRecord 1 "a"), ("2", userRecord 2 "b")])]
            true false,
            [.Prepare "SELECT * FROM users", .Query "SELECT * FROM users" [],
             .Exec "DELETE FROM users" []]⟩
          (Table "users", 2, none) ∧
    (Table "users").Count flatHelpers twoUsersStore
        ⟨usersDB DRIVER_MYSQL [("users", [("1", userRecord 1 "a"), ("2", userRecord 2 "b")])]
          false false,
          [.Prepare "SELECT * FROM users", .Query "SELECT * FROM users" [],
           .Exec "DELETE FROM users" []]⟩
      = .returned
          ⟨usersDB DRIVER_MYSQL [("users", [("1", userRecord 1 "a"), ("2", userRecord 2 "b")])]
            false false,
            [.Prepare "SELECT * FROM users", .Query "SELECT * FROM users" [],
             .Exec "DELETE FROM users" [],
             .QueryRow "SELECT COUNT(*) FROM users LIMIT 1" []]⟩
          ((Table "users").Fields ["COUNT(*)"], 0, none) := by
  decide

end Dbx
